import Mathlib

/-!
Verification of the HAR (HTTP Archive) 1.2 schema of `harfile/har.go` and of
the codec contract specified for it.

The repository itself contains only the schema type declarations (Go structs
with their JSON field tags); the Decode/Encode codec is specified but not
implemented there.  The schema types below are translated from
`src/harfile/har.go` (field names are the JSON tag names; `omitempty` fields
are the ones routed through the optional-field combinators).  The codec is
modelled from the spec, as marked on each such definition.
-/

namespace Harkit

/-- External representation handled by the codec: a structured text document,
modelled as a JSON value tree.  Numbers are exact rationals. -/
inductive JSON : Type
  | null : JSON
  | bool : Bool → JSON
  | num : ℚ → JSON
  | str : String → JSON
  | arr : List JSON → JSON
  | obj : List (String × JSON) → JSON

/-- Field list of a JSON object. -/
abbrev Fields := List (String × JSON)

/-- First-match key lookup in a JSON object's field list. -/
def lookupField : Fields → String → Option JSON
  | [], _ => none
  | (k, v) :: rest, key => if k = key then some v else lookupField rest key

/-- Modelled from the spec: the explicit three-state tagged optional for
sentinel-carrying numeric fields (spec design note: an enum of
Unmeasured / NotApplicable / Value, where absence means "not measured" and
the −1 sentinel means "not applicable"). -/
inductive Opt3 (α : Type) : Type
  | unmeasured : Opt3 α
  | notApplicable : Opt3 α
  | value : α → Opt3 α
deriving DecidableEq, Repr

/-- Modelled from the spec: a decoded timestamp field.  A string passing
ISO 8601 validation is kept as `valid`; a malformed one is flagged
`invalid` (the InvalidTimestamp flag) with the raw string retained. -/
inductive Timestamp : Type
  | valid : String → Timestamp
  | invalid : String → Timestamp
deriving DecidableEq, Repr

/-- The raw string carried by a timestamp, valid or not. -/
def Timestamp.raw : Timestamp → String
  | .valid s => s
  | .invalid s => s

/-- ASCII digit test. -/
def isDigitChar (c : Char) : Bool := '0' ≤ c && c ≤ '9'

/-- Timezone designator: `Z` or `±hh:mm`. -/
def tzSuffix : List Char → Bool
  | ['Z'] => true
  | ['+', h1, h2, ':', m1, m2] => [h1, h2, m1, m2].all isDigitChar
  | ['-', h1, h2, ':', m1, m2] => [h1, h2, m1, m2].all isDigitChar
  | _ => false

/-- Drop a leading run of ASCII digits. -/
def dropDigits : List Char → List Char
  | [] => []
  | c :: rest => if isDigitChar c then dropDigits rest else c :: rest

/-- Optional fractional-seconds part followed by the timezone designator. -/
def fracTZ : List Char → Bool
  | '.' :: c :: rest => isDigitChar c && tzSuffix (dropDigits rest)
  | cs => tzSuffix cs

/-- Modelled from the spec: shape-level validation of the timestamp format
ISO 8601 `YYYY-MM-DDThh:mm:ss(.s+)TZD` with a timezone offset. -/
def isValidISO8601 (s : String) : Bool :=
  match s.data with
  | y1 :: y2 :: y3 :: y4 :: '-' :: m1 :: m2 :: '-' :: d1 :: d2 :: 'T' ::
      h1 :: h2 :: ':' :: n1 :: n2 :: ':' :: s1 :: s2 :: rest =>
    [y1, y2, y3, y4, m1, m2, d1, d2, h1, h2, n1, n2, s1, s2].all isDigitChar && fracTZ rest
  | _ => false

/-! ## Schema types, translated from `harfile/har.go`.

Go pointer fields are `Option`; Go slices are `List`; Go `int64` is `Int`;
Go `float64` timing values are exact rationals; a `float64`/`int64` field
tagged `omitempty` (the sentinel-carrying ones) is an `Opt3`, the spec's
tagged optional; `time.Time` fields are the spec's `Timestamp`. -/

/-- Creator and browser objects share the same structure. -/
structure Creator : Type where
  name : String
  version : String
  comment : String
deriving DecidableEq, Repr

/-- Browser and creator objects share the same structure. -/
structure Browser : Type where
  name : String
  version : String
  comment : String
deriving DecidableEq, Repr

/-- Describes timings for page-load events; −1 means "not applicable". -/
structure PageTimings : Type where
  onContentLoad : Opt3 ℚ
  onLoad : Opt3 ℚ
  comment : String
deriving DecidableEq, Repr

/-- One exported (tracked) page. -/
structure Page : Type where
  startedDateTime : Timestamp
  id : String
  title : String
  pageTimings : Option PageTimings
  comment : String
deriving DecidableEq, Repr

/-- A name/value pair (headers and query parameters). -/
structure NameValuePair : Type where
  name : String
  value : String
  comment : String
deriving DecidableEq, Repr

/-- A cookie, used in request and response objects. -/
structure Cookie : Type where
  name : String
  value : String
  path : String
  domain : String
  expires : String
  httpOnly : Bool
  secure : Bool
  comment : String
deriving DecidableEq, Repr

/-- One posted parameter (embedded in PostData). -/
structure Param : Type where
  name : String
  value : String
  fileName : String
  contentType : String
  comment : String
deriving DecidableEq, Repr

/-- Posted data, if any (embedded in a request). -/
structure PostData : Type where
  mimeType : String
  params : List Param
  text : String
  comment : String
deriving DecidableEq, Repr

/-- Details about response content (embedded in a response). -/
structure Content : Type where
  size : Int
  compression : Opt3 Int
  mimeType : String
  text : String
  encoding : String
  comment : String
deriving DecidableEq, Repr

/-- Detailed info about a performed request. -/
structure Request : Type where
  method : String
  url : String
  httpVersion : String
  cookies : List Cookie
  headers : List NameValuePair
  queryString : List NameValuePair
  postData : Option PostData
  headersSize : Int
  bodySize : Int
  comment : String
deriving DecidableEq, Repr

/-- Detailed info about a response. -/
structure Response : Type where
  status : Int
  statusText : String
  httpVersion : String
  cookies : List Cookie
  headers : List NameValuePair
  content : Option Content
  redirectURL : String
  headersSize : Int
  bodySize : Int
  comment : String
deriving DecidableEq, Repr

/-- Cache data for beforeRequest and afterRequest. -/
structure CacheData : Type where
  expires : String
  lastAccess : String
  eTag : String
  hitCount : Int
  comment : String
deriving DecidableEq, Repr

/-- Info about a request coming from browser cache. -/
structure Cache : Type where
  beforeRequest : Option CacheData
  afterRequest : Option CacheData
  comment : String
deriving DecidableEq, Repr

/-- Phases of the request/response round trip, milliseconds;
−1 means "not applicable", absence means "not measured". -/
structure Timings : Type where
  blocked : Opt3 ℚ
  dns : Opt3 ℚ
  connect : Opt3 ℚ
  send : ℚ
  wait : ℚ
  receive : ℚ
  ssl : Opt3 ℚ
  comment : String
deriving DecidableEq, Repr

/-- One exported HTTP request/response exchange. -/
structure Entry : Type where
  pageref : String
  startedDateTime : Timestamp
  time : ℚ
  request : Option Request
  response : Option Response
  cache : Option Cache
  timings : Option Timings
  serverIPAddress : String
  connection : String
  comment : String
deriving DecidableEq, Repr

/-- Root of the exported data. -/
structure Log : Type where
  version : String
  creator : Option Creator
  browser : Option Browser
  pages : List Page
  entries : List Entry
  comment : String
deriving DecidableEq, Repr

/-- Parent container for the log. -/
structure HAR : Type where
  log : Option Log
deriving DecidableEq, Repr

/-! ## Encoder, modelled from the spec. -/

/-- Modelled from the spec: the only encode-time error kind, raised when a
required field is in its zero-value/uninitialized state. -/
inductive EncodeError : Type
  | unencodableValue : EncodeError
deriving DecidableEq, Repr

/-- An `omitempty` string field: omitted entirely when empty. -/
def strOpt (s : String) : Option JSON :=
  if s = "" then none else some (.str s)

/-- An `omitempty` sentinel-carrying rational field: omitted when unmeasured,
emitted literally as −1 when not applicable, emitted as its value otherwise. -/
def opt3NumJson : Opt3 ℚ → Option JSON
  | .unmeasured => none
  | .notApplicable => some (.num (-1))
  | .value q => some (.num q)

/-- An `omitempty` sentinel-carrying integer field. -/
def opt3IntJson : Opt3 Int → Option JSON
  | .unmeasured => none
  | .notApplicable => some (.num (-1))
  | .value n => some (.num (n : ℚ))

/-- Assemble an object's field list from per-key optional segments, in the
canonical field order: a key whose segment is absent is not emitted at
all. -/
def segs : List (String × Option JSON) → Fields
  | [] => []
  | (_, none) :: rest => segs rest
  | (k, some j) :: rest => (k, j) :: segs rest

/-- Modelled from the spec: a required (Go pointer) field must be initialized
at encode time, otherwise the encode fails with UnencodableValue. -/
def required {α : Type} : Option α → Except EncodeError α
  | none => .error .unencodableValue
  | some a => .ok a

/-- Effectful map for the fallible encoders, failing on the first failure. -/
def mapEE {α : Type} (g : α → Except EncodeError JSON) : List α → Except EncodeError (List JSON)
  | [] => .ok []
  | x :: rest => do
    let y ← g x
    let ys ← mapEE g rest
    .ok (y :: ys)

/-- Encoded field list of a creator object. -/
def encodeCreatorFields (c : Creator) : Fields :=
  segs [("name", some (.str c.name)), ("version", some (.str c.version)),
    ("comment", strOpt c.comment)]

/-- Encode a creator object. -/
def encodeCreator (c : Creator) : JSON := .obj (encodeCreatorFields c)

/-- Encoded field list of a browser object. -/
def encodeBrowserFields (b : Browser) : Fields :=
  segs [("name", some (.str b.name)), ("version", some (.str b.version)),
    ("comment", strOpt b.comment)]

/-- Encode a browser object. -/
def encodeBrowser (b : Browser) : JSON := .obj (encodeBrowserFields b)

/-- Encoded field list of a name/value pair. -/
def encodeNameValuePairFields (p : NameValuePair) : Fields :=
  segs [("name", some (.str p.name)), ("value", some (.str p.value)),
    ("comment", strOpt p.comment)]

/-- Encode a name/value pair. -/
def encodeNameValuePair (p : NameValuePair) : JSON := .obj (encodeNameValuePairFields p)

/-- Encoded field list of a cookie: name, value and the two boolean flags are
always emitted; path, domain, expires and comment are `omitempty`. -/
def encodeCookieFields (c : Cookie) : Fields :=
  segs [("name", some (.str c.name)), ("value", some (.str c.value)),
    ("path", strOpt c.path), ("domain", strOpt c.domain),
    ("expires", strOpt c.expires),
    ("httpOnly", some (.bool c.httpOnly)), ("secure", some (.bool c.secure)),
    ("comment", strOpt c.comment)]

/-- Encode a cookie. -/
def encodeCookie (c : Cookie) : JSON := .obj (encodeCookieFields c)

/-- Encoded field list of a posted parameter. -/
def encodeParamFields (p : Param) : Fields :=
  segs [("name", some (.str p.name)), ("value", strOpt p.value),
    ("fileName", strOpt p.fileName), ("contentType", strOpt p.contentType),
    ("comment", strOpt p.comment)]

/-- Encode a posted parameter. -/
def encodeParam (p : Param) : JSON := .obj (encodeParamFields p)

/-- Encoded field list of posted data. -/
def encodePostDataFields (d : PostData) : Fields :=
  segs [("mimeType", some (.str d.mimeType)),
    ("params", some (.arr (d.params.map encodeParam))),
    ("text", some (.str d.text)), ("comment", strOpt d.comment)]

/-- Encode posted data. -/
def encodePostData (d : PostData) : JSON := .obj (encodePostDataFields d)

/-- Encoded field list of response content; `compression`, `text`, `encoding`
and `comment` are `omitempty`. -/
def encodeContentFields (c : Content) : Fields :=
  segs [("size", some (.num (c.size : ℚ))),
    ("compression", opt3IntJson c.compression),
    ("mimeType", some (.str c.mimeType)), ("text", strOpt c.text),
    ("encoding", strOpt c.encoding), ("comment", strOpt c.comment)]

/-- Encode response content. -/
def encodeContent (c : Content) : JSON := .obj (encodeContentFields c)

/-- Encoded field list of cache data. -/
def encodeCacheDataFields (d : CacheData) : Fields :=
  segs [("expires", strOpt d.expires), ("lastAccess", some (.str d.lastAccess)),
    ("eTag", some (.str d.eTag)), ("hitCount", some (.num (d.hitCount : ℚ))),
    ("comment", strOpt d.comment)]

/-- Encode cache data. -/
def encodeCacheData (d : CacheData) : JSON := .obj (encodeCacheDataFields d)

/-- Encoded field list of cache info; both sides are `omitempty`. -/
def encodeCacheFields (c : Cache) : Fields :=
  segs [("beforeRequest", c.beforeRequest.map encodeCacheData),
    ("afterRequest", c.afterRequest.map encodeCacheData),
    ("comment", strOpt c.comment)]

/-- Encode cache info. -/
def encodeCache (c : Cache) : JSON := .obj (encodeCacheFields c)

/-- Encoded field list of timings; `blocked`, `dns`, `connect` and `ssl`
carry the −1 sentinel and are `omitempty`; `send`, `wait` and `receive`
are always emitted. -/
def encodeTimingsFields (t : Timings) : Fields :=
  segs [("blocked", opt3NumJson t.blocked), ("dns", opt3NumJson t.dns),
    ("connect", opt3NumJson t.connect),
    ("send", some (.num t.send)), ("wait", some (.num t.wait)),
    ("receive", some (.num t.receive)),
    ("ssl", opt3NumJson t.ssl), ("comment", strOpt t.comment)]

/-- Encode timings. -/
def encodeTimings (t : Timings) : JSON := .obj (encodeTimingsFields t)

/-- Encoded field list of page timings; both timing fields carry the −1
sentinel and are `omitempty`. -/
def encodePageTimingsFields (p : PageTimings) : Fields :=
  segs [("onContentLoad", opt3NumJson p.onContentLoad),
    ("onLoad", opt3NumJson p.onLoad), ("comment", strOpt p.comment)]

/-- Encode page timings. -/
def encodePageTimings (p : PageTimings) : JSON := .obj (encodePageTimingsFields p)

/-- Encoded field list of a request; `headersSize` and `bodySize` are always
emitted, whatever their value. -/
def encodeRequestFields (r : Request) : Fields :=
  segs [("method", some (.str r.method)), ("url", some (.str r.url)),
    ("httpVersion", some (.str r.httpVersion)),
    ("cookies", some (.arr (r.cookies.map encodeCookie))),
    ("headers", some (.arr (r.headers.map encodeNameValuePair))),
    ("queryString", some (.arr (r.queryString.map encodeNameValuePair))),
    ("postData", r.postData.map encodePostData),
    ("headersSize", some (.num (r.headersSize : ℚ))),
    ("bodySize", some (.num (r.bodySize : ℚ))),
    ("comment", strOpt r.comment)]

/-- Encode a request. -/
def encodeRequest (r : Request) : JSON := .obj (encodeRequestFields r)

/-- Encoded field list of a response around its already-encoded content;
`headersSize` and `bodySize` are always emitted. -/
def encodeResponseFields (r : Response) (contentJ : JSON) : Fields :=
  segs [("status", some (.num (r.status : ℚ))), ("statusText", some (.str r.statusText)),
    ("httpVersion", some (.str r.httpVersion)),
    ("cookies", some (.arr (r.cookies.map encodeCookie))),
    ("headers", some (.arr (r.headers.map encodeNameValuePair))),
    ("content", some contentJ), ("redirectURL", some (.str r.redirectURL)),
    ("headersSize", some (.num (r.headersSize : ℚ))),
    ("bodySize", some (.num (r.bodySize : ℚ))),
    ("comment", strOpt r.comment)]

/-- Modelled from the spec: encode a response; fails with UnencodableValue
when the required content is uninitialized or the required status holds its
zero value. -/
def encodeResponse (r : Response) : Except EncodeError JSON := do
  let c ← required r.content
  if r.status = 0 then .error .unencodableValue
  else .ok (.obj (encodeResponseFields r (encodeContent c)))

/-- Modelled from the spec: encode an entry; the required request, response,
cache and timings must be initialized. -/
def encodeEntry (e : Entry) : Except EncodeError JSON := do
  let req ← required e.request
  let rsp ← required e.response
  let rspJ ← encodeResponse rsp
  let ca ← required e.cache
  let t ← required e.timings
  .ok (.obj (segs [("pageref", strOpt e.pageref),
    ("startedDateTime", some (.str e.startedDateTime.raw)),
    ("time", some (.num e.time)),
    ("request", some (encodeRequest req)), ("response", some rspJ),
    ("cache", some (encodeCache ca)), ("timings", some (encodeTimings t)),
    ("serverIPAddress", strOpt e.serverIPAddress),
    ("connection", strOpt e.connection), ("comment", strOpt e.comment)]))

/-- Modelled from the spec: encode a page; the required page timings must be
initialized. -/
def encodePage (p : Page) : Except EncodeError JSON := do
  let pt ← required p.pageTimings
  .ok (.obj (segs [("startedDateTime", some (.str p.startedDateTime.raw)),
    ("id", some (.str p.id)), ("title", some (.str p.title)),
    ("pageTimings", some (encodePageTimings pt)), ("comment", strOpt p.comment)]))

/-- Modelled from the spec: encode a log; the required creator must be
initialized; `pages` is `omitempty` and is left out when empty; `version`
and `entries` are always emitted. -/
def encodeLog (l : Log) : Except EncodeError JSON := do
  let cr ← required l.creator
  let pagesJ ← mapEE encodePage l.pages
  let entriesJ ← mapEE encodeEntry l.entries
  .ok (.obj (segs [("version", some (.str l.version)),
    ("creator", some (encodeCreator cr)),
    ("browser", l.browser.map encodeBrowser),
    ("pages", if l.pages.isEmpty then none else some (.arr pagesJ)),
    ("entries", some (.arr entriesJ)), ("comment", strOpt l.comment)]))

/-- Modelled from the spec: Encode(Archive) — serialize the record graph to
the external representation, one top-level object with the single key `log`. -/
def encodeHAR (a : HAR) : Except EncodeError JSON := do
  let lg ← required a.log
  let lj ← encodeLog lg
  .ok (.obj [("log", lj)])

/-! ## Decoder, modelled from the spec. -/

/-- Modelled from the spec: the abortive decode-time error kinds.
MalformedInput is a structural violation (missing required key/object);
TypeMismatch is a present value of the wrong kind.  The recoverable
InvalidTimestamp condition is not abortive: it is the `Timestamp.invalid`
flag on the decoded record. -/
inductive DecodeError : Type
  | malformedInput : DecodeError
  | typeMismatch : DecodeError
deriving DecidableEq, Repr

/-- Decode a string field: a missing optional string decodes to the empty
string; a present value must be a string. -/
def decodeStr : Option JSON → Except DecodeError String
  | none => .ok ""
  | some (.str s) => .ok s
  | some _ => .error .typeMismatch

/-- Decode a rational-number field: missing decodes to 0; a present value
must be a number. -/
def decodeNum : Option JSON → Except DecodeError ℚ
  | none => .ok 0
  | some (.num q) => .ok q
  | some _ => .error .typeMismatch

/-- Decode an integer field: missing decodes to 0; a present value must be
an integral number. -/
def decodeInt : Option JSON → Except DecodeError Int
  | none => .ok 0
  | some (.num q) => if q.den = 1 then .ok q.num else .error .typeMismatch
  | some _ => .error .typeMismatch

/-- Decode a boolean field: missing decodes to false; a present value must
be a boolean. -/
def decodeBool : Option JSON → Except DecodeError Bool
  | none => .ok false
  | some (.bool b) => .ok b
  | some _ => .error .typeMismatch

/-- Modelled from the spec: decode a sentinel-carrying rational field into
the three-state optional — missing is "not measured", the literal −1 is the
"not applicable" marker, any other number is an ordinary present value. -/
def decodeOpt3Num : Option JSON → Except DecodeError (Opt3 ℚ)
  | none => .ok .unmeasured
  | some (.num q) => .ok (if q = -1 then .notApplicable else .value q)
  | some _ => .error .typeMismatch

/-- Modelled from the spec: decode a sentinel-carrying integer field into
the three-state optional. -/
def decodeOpt3Int : Option JSON → Except DecodeError (Opt3 Int)
  | none => .ok .unmeasured
  | some (.num q) =>
    if q = -1 then .ok .notApplicable
    else if q.den = 1 then .ok (.value q.num) else .error .typeMismatch
  | some _ => .error .typeMismatch

/-- Modelled from the spec: decode a timestamp field.  A malformed string
does not abort the decode: it is flagged invalid with the raw string
retained as a fallback representation. -/
def decodeTimestamp : Option JSON → Except DecodeError Timestamp
  | none => .ok (.invalid "")
  | some (.str s) => .ok (if isValidISO8601 s then .valid s else .invalid s)
  | some _ => .error .typeMismatch

/-- A required key: missing is the structural error MalformedInput. -/
def requireKey (fs : Fields) (key : String) : Except DecodeError JSON :=
  match lookupField fs key with
  | none => .error .malformedInput
  | some j => .ok j

/-- A present value that must be an object. -/
def asObj : JSON → Except DecodeError Fields
  | .obj fs => .ok fs
  | _ => .error .typeMismatch

/-- Effectful map for the decoders, failing on the first failure. -/
def mapE {α : Type} (f : JSON → Except DecodeError α) : List JSON → Except DecodeError (List α)
  | [] => .ok []
  | x :: rest => do
    let y ← f x
    let ys ← mapE f rest
    .ok (y :: ys)

/-- Decode an optional array field: missing decodes to the empty sequence. -/
def decodeArr {α : Type} (f : JSON → Except DecodeError α) :
    Option JSON → Except DecodeError (List α)
  | none => .ok []
  | some (.arr xs) => mapE f xs
  | some _ => .error .typeMismatch

/-- Decode a required array value. -/
def decodeArrReq {α : Type} (f : JSON → Except DecodeError α) :
    JSON → Except DecodeError (List α)
  | .arr xs => mapE f xs
  | _ => .error .typeMismatch

/-- Decode an optional sub-object field: missing decodes to the absent
state. -/
def decodeOptObj {α : Type} (f : JSON → Except DecodeError α) :
    Option JSON → Except DecodeError (Option α)
  | none => .ok none
  | some j => do .ok (some (← f j))

/-- Decode a creator object's fields. -/
def decodeCreatorFields (fs : Fields) : Except DecodeError Creator := do
  let name ← decodeStr (lookupField fs "name")
  let version ← decodeStr (lookupField fs "version")
  let comment ← decodeStr (lookupField fs "comment")
  .ok ⟨name, version, comment⟩

/-- Decode a creator object. -/
def decodeCreator (j : JSON) : Except DecodeError Creator := do
  decodeCreatorFields (← asObj j)

/-- Decode a browser object's fields. -/
def decodeBrowserFields (fs : Fields) : Except DecodeError Browser := do
  let name ← decodeStr (lookupField fs "name")
  let version ← decodeStr (lookupField fs "version")
  let comment ← decodeStr (lookupField fs "comment")
  .ok ⟨name, version, comment⟩

/-- Decode a browser object. -/
def decodeBrowser (j : JSON) : Except DecodeError Browser := do
  decodeBrowserFields (← asObj j)

/-- Decode a name/value pair's fields. -/
def decodeNameValuePairFields (fs : Fields) : Except DecodeError NameValuePair := do
  let name ← decodeStr (lookupField fs "name")
  let value ← decodeStr (lookupField fs "value")
  let comment ← decodeStr (lookupField fs "comment")
  .ok ⟨name, value, comment⟩

/-- Decode a name/value pair. -/
def decodeNameValuePair (j : JSON) : Except DecodeError NameValuePair := do
  decodeNameValuePairFields (← asObj j)

/-- Decode a cookie's fields; a missing httpOnly or secure key decodes to
false. -/
def decodeCookieFields (fs : Fields) : Except DecodeError Cookie := do
  let name ← decodeStr (lookupField fs "name")
  let value ← decodeStr (lookupField fs "value")
  let path ← decodeStr (lookupField fs "path")
  let domain ← decodeStr (lookupField fs "domain")
  let expires ← decodeStr (lookupField fs "expires")
  let httpOnly ← decodeBool (lookupField fs "httpOnly")
  let secure ← decodeBool (lookupField fs "secure")
  let comment ← decodeStr (lookupField fs "comment")
  .ok ⟨name, value, path, domain, expires, httpOnly, secure, comment⟩

/-- Decode a cookie. -/
def decodeCookie (j : JSON) : Except DecodeError Cookie := do
  decodeCookieFields (← asObj j)

/-- Decode a posted parameter's fields. -/
def decodeParamFields (fs : Fields) : Except DecodeError Param := do
  let name ← decodeStr (lookupField fs "name")
  let value ← decodeStr (lookupField fs "value")
  let fileName ← decodeStr (lookupField fs "fileName")
  let contentType ← decodeStr (lookupField fs "contentType")
  let comment ← decodeStr (lookupField fs "comment")
  .ok ⟨name, value, fileName, contentType, comment⟩

/-- Decode a posted parameter. -/
def decodeParam (j : JSON) : Except DecodeError Param := do
  decodeParamFields (← asObj j)

/-- Decode posted data's fields. -/
def decodePostDataFields (fs : Fields) : Except DecodeError PostData := do
  let mimeType ← decodeStr (lookupField fs "mimeType")
  let params ← decodeArr decodeParam (lookupField fs "params")
  let text ← decodeStr (lookupField fs "text")
  let comment ← decodeStr (lookupField fs "comment")
  .ok ⟨mimeType, params, text, comment⟩

/-- Decode posted data. -/
def decodePostData (j : JSON) : Except DecodeError PostData := do
  decodePostDataFields (← asObj j)

/-- Decode response content's fields. -/
def decodeContentFields (fs : Fields) : Except DecodeError Content := do
  let size ← decodeInt (lookupField fs "size")
  let compression ← decodeOpt3Int (lookupField fs "compression")
  let mimeType ← decodeStr (lookupField fs "mimeType")
  let text ← decodeStr (lookupField fs "text")
  let encoding ← decodeStr (lookupField fs "encoding")
  let comment ← decodeStr (lookupField fs "comment")
  .ok ⟨size, compression, mimeType, text, encoding, comment⟩

/-- Decode response content. -/
def decodeContent (j : JSON) : Except DecodeError Content := do
  decodeContentFields (← asObj j)

/-- Decode cache data's fields. -/
def decodeCacheDataFields (fs : Fields) : Except DecodeError CacheData := do
  let expires ← decodeStr (lookupField fs "expires")
  let lastAccess ← decodeStr (lookupField fs "lastAccess")
  let eTag ← decodeStr (lookupField fs "eTag")
  let hitCount ← decodeInt (lookupField fs "hitCount")
  let comment ← decodeStr (lookupField fs "comment")
  .ok ⟨expires, lastAccess, eTag, hitCount, comment⟩

/-- Decode cache data. -/
def decodeCacheData (j : JSON) : Except DecodeError CacheData := do
  decodeCacheDataFields (← asObj j)

/-- Decode cache info's fields; both sides are optional and their absence
means "no information". -/
def decodeCacheFields (fs : Fields) : Except DecodeError Cache := do
  let before ← decodeOptObj decodeCacheData (lookupField fs "beforeRequest")
  let after ← decodeOptObj decodeCacheData (lookupField fs "afterRequest")
  let comment ← decodeStr (lookupField fs "comment")
  .ok ⟨before, after, comment⟩

/-- Decode cache info. -/
def decodeCache (j : JSON) : Except DecodeError Cache := do
  decodeCacheFields (← asObj j)

/-- Decode timings' fields: the optional phases are three-state. -/
def decodeTimingsFields (fs : Fields) : Except DecodeError Timings := do
  let blocked ← decodeOpt3Num (lookupField fs "blocked")
  let dns ← decodeOpt3Num (lookupField fs "dns")
  let connect ← decodeOpt3Num (lookupField fs "connect")
  let send ← decodeNum (lookupField fs "send")
  let wait ← decodeNum (lookupField fs "wait")
  let receive ← decodeNum (lookupField fs "receive")
  let ssl ← decodeOpt3Num (lookupField fs "ssl")
  let comment ← decodeStr (lookupField fs "comment")
  .ok ⟨blocked, dns, connect, send, wait, receive, ssl, comment⟩

/-- Decode timings. -/
def decodeTimings (j : JSON) : Except DecodeError Timings := do
  decodeTimingsFields (← asObj j)

/-- Decode page timings' fields: both timing fields are three-state. -/
def decodePageTimingsFields (fs : Fields) : Except DecodeError PageTimings := do
  let onContentLoad ← decodeOpt3Num (lookupField fs "onContentLoad")
  let onLoad ← decodeOpt3Num (lookupField fs "onLoad")
  let comment ← decodeStr (lookupField fs "comment")
  .ok ⟨onContentLoad, onLoad, comment⟩

/-- Decode page timings. -/
def decodePageTimings (j : JSON) : Except DecodeError PageTimings := do
  decodePageTimingsFields (← asObj j)

/-- Decode a request's fields. -/
def decodeRequestFields (fs : Fields) : Except DecodeError Request := do
  let method ← decodeStr (lookupField fs "method")
  let url ← decodeStr (lookupField fs "url")
  let httpVersion ← decodeStr (lookupField fs "httpVersion")
  let cookies ← decodeArr decodeCookie (lookupField fs "cookies")
  let headers ← decodeArr decodeNameValuePair (lookupField fs "headers")
  let queryString ← decodeArr decodeNameValuePair (lookupField fs "queryString")
  let postData ← decodeOptObj decodePostData (lookupField fs "postData")
  let headersSize ← decodeInt (lookupField fs "headersSize")
  let bodySize ← decodeInt (lookupField fs "bodySize")
  let comment ← decodeStr (lookupField fs "comment")
  .ok ⟨method, url, httpVersion, cookies, headers, queryString, postData,
    headersSize, bodySize, comment⟩

/-- Decode a request. -/
def decodeRequest (j : JSON) : Except DecodeError Request := do
  decodeRequestFields (← asObj j)

/-- Modelled from the spec: decode a response's fields; the required content
object must be present (MalformedInput otherwise). -/
def decodeResponseFields (fs : Fields) : Except DecodeError Response := do
  let contentJ ← requireKey fs "content"
  let status ← decodeInt (lookupField fs "status")
  let statusText ← decodeStr (lookupField fs "statusText")
  let httpVersion ← decodeStr (lookupField fs "httpVersion")
  let cookies ← decodeArr decodeCookie (lookupField fs "cookies")
  let headers ← decodeArr decodeNameValuePair (lookupField fs "headers")
  let content ← decodeContent contentJ
  let redirectURL ← decodeStr (lookupField fs "redirectURL")
  let headersSize ← decodeInt (lookupField fs "headersSize")
  let bodySize ← decodeInt (lookupField fs "bodySize")
  let comment ← decodeStr (lookupField fs "comment")
  .ok ⟨status, statusText, httpVersion, cookies, headers, some content,
    redirectURL, headersSize, bodySize, comment⟩

/-- Decode a response. -/
def decodeResponse (j : JSON) : Except DecodeError Response := do
  decodeResponseFields (← asObj j)

/-- Modelled from the spec: decode an entry's fields; the required request,
response, cache and timings objects must be present (MalformedInput
otherwise); a malformed startedDateTime does not abort the decode. -/
def decodeEntryFields (fs : Fields) : Except DecodeError Entry := do
  let requestJ ← requireKey fs "request"
  let responseJ ← requireKey fs "response"
  let cacheJ ← requireKey fs "cache"
  let timingsJ ← requireKey fs "timings"
  let pageref ← decodeStr (lookupField fs "pageref")
  let started ← decodeTimestamp (lookupField fs "startedDateTime")
  let time ← decodeNum (lookupField fs "time")
  let request ← decodeRequest requestJ
  let response ← decodeResponse responseJ
  let cache ← decodeCache cacheJ
  let timings ← decodeTimings timingsJ
  let serverIPAddress ← decodeStr (lookupField fs "serverIPAddress")
  let connection ← decodeStr (lookupField fs "connection")
  let comment ← decodeStr (lookupField fs "comment")
  .ok ⟨pageref, started, time, some request, some response, some cache,
    some timings, serverIPAddress, connection, comment⟩

/-- Decode an entry. -/
def decodeEntry (j : JSON) : Except DecodeError Entry := do
  decodeEntryFields (← asObj j)

/-- Modelled from the spec: decode a page's fields; the required page
timings object must be present (MalformedInput otherwise). -/
def decodePageFields (fs : Fields) : Except DecodeError Page := do
  let pageTimingsJ ← requireKey fs "pageTimings"
  let started ← decodeTimestamp (lookupField fs "startedDateTime")
  let id ← decodeStr (lookupField fs "id")
  let title ← decodeStr (lookupField fs "title")
  let pageTimings ← decodePageTimings pageTimingsJ
  let comment ← decodeStr (lookupField fs "comment")
  .ok ⟨started, id, title, some pageTimings, comment⟩

/-- Decode a page. -/
def decodePage (j : JSON) : Except DecodeError Page := do
  decodePageFields (← asObj j)

/-- Modelled from the spec: decode the format version string; readers must
tolerate its absence, which means "1.1". -/
def decodeVersion : Option JSON → Except DecodeError String
  | none => .ok "1.1"
  | some (.str s) => .ok s
  | some _ => .error .typeMismatch

/-- Modelled from the spec: decode a log's fields; the required creator and
entries must be present (MalformedInput otherwise); a missing version means
"1.1"; missing pages decode to the empty page sequence. -/
def decodeLogFields (fs : Fields) : Except DecodeError Log := do
  let creatorJ ← requireKey fs "creator"
  let entriesJ ← requireKey fs "entries"
  let version ← decodeVersion (lookupField fs "version")
  let creator ← decodeCreator creatorJ
  let browser ← decodeOptObj decodeBrowser (lookupField fs "browser")
  let pages ← decodeArr decodePage (lookupField fs "pages")
  let entries ← decodeArrReq decodeEntry entriesJ
  let comment ← decodeStr (lookupField fs "comment")
  .ok ⟨version, some creator, browser, pages, entries, comment⟩

/-- Decode a log object. -/
def decodeLog (j : JSON) : Except DecodeError Log := do
  decodeLogFields (← asObj j)

/-- Modelled from the spec: Decode(bytes) — parse the external
representation; the top level must be an object containing a `log` key
(MalformedInput otherwise). -/
def decode (j : JSON) : Except DecodeError HAR :=
  match j with
  | .obj fs =>
    match lookupField fs "log" with
    | none => .error .malformedInput
    | some lj => do .ok ⟨some (← decodeLog lj)⟩
  | _ => .error .malformedInput

/-! ## Validity of in-memory archives.

A valid archive stores the −1 sentinel only as the tagged
`Opt3.notApplicable` state, never as an ordinary value, and its timestamps
are consistently flagged. -/

/-- A sentinel-carrying rational field never stores −1 as an ordinary
value. -/
def Opt3.wfNum : Opt3 ℚ → Bool
  | .value q => decide (q ≠ -1)
  | _ => true

/-- A sentinel-carrying integer field never stores −1 as an ordinary
value. -/
def Opt3.wfInt : Opt3 Int → Bool
  | .value n => decide (n ≠ -1)
  | _ => true

/-- A timestamp's flag agrees with validation of its raw string. -/
def Timestamp.wf : Timestamp → Bool
  | .valid s => isValidISO8601 s
  | .invalid s => !isValidISO8601 s

/-- Validity lifted to an optional sub-record. -/
def optWf {α : Type} (f : α → Bool) : Option α → Bool
  | none => true
  | some x => f x

/-- Validity of response content. -/
def Content.wf (c : Content) : Bool := Opt3.wfInt c.compression

/-- Validity of timings. -/
def Timings.wf (t : Timings) : Bool :=
  Opt3.wfNum t.blocked && Opt3.wfNum t.dns && Opt3.wfNum t.connect && Opt3.wfNum t.ssl

/-- Validity of page timings. -/
def PageTimings.wf (p : PageTimings) : Bool :=
  Opt3.wfNum p.onContentLoad && Opt3.wfNum p.onLoad

/-- Validity of a response. -/
def Response.wf (r : Response) : Bool := optWf Content.wf r.content

/-- Validity of an entry. -/
def Entry.wf (e : Entry) : Bool :=
  e.startedDateTime.wf && optWf Response.wf e.response && optWf Timings.wf e.timings

/-- Validity of a page. -/
def Page.wf (p : Page) : Bool :=
  p.startedDateTime.wf && optWf PageTimings.wf p.pageTimings

/-- Validity of a log. -/
def Log.wf (l : Log) : Bool := l.pages.all Page.wf && l.entries.all Entry.wf

/-- Validity of an archive. -/
def HAR.wf (a : HAR) : Bool := optWf Log.wf a.log

/-! ## Derived definitions used by the verification. -/

/-- Modelled from the spec: the contribution of a three-state timing phase to
the entry's total time — only an ordinary measured value counts; "not
applicable" (−1) and "not measured" (absent) are excluded from the sum. -/
def Opt3.timeVal : Opt3 ℚ → ℚ
  | .value q => q
  | _ => 0

/-- Modelled from the spec: the total elapsed time accounted by a timings
record: the sum of all available phases.  The ssl time is not added
separately since, when present, it is already counted inside connect. -/
def Timings.total (t : Timings) : ℚ :=
  t.blocked.timeVal + t.dns.timeVal + t.connect.timeVal + t.send + t.wait + t.receive

/-- A concrete valid archive exercising the absent / sentinel −1 / present
zero states of the optional numeric fields. -/
def c1sample : HAR :=
  ⟨some ⟨"1.2", some ⟨"x", "1", ""⟩, none,
    [⟨.valid "2020-01-01T00:00:00.000Z", "p1", "t",
      some ⟨.value 0, .notApplicable, "c"⟩, ""⟩],
    [⟨"p1", .valid "2020-01-01T00:00:00.000Z", 10,
      some ⟨"GET", "http://a/", "HTTP/1.1", [], [], [], none, -1, 0, ""⟩,
      some ⟨200, "OK", "HTTP/1.1", [], [],
        some ⟨5, .value 0, "text/plain", "", "", ""⟩, "", -1, 0, ""⟩,
      some ⟨none, none, ""⟩,
      some ⟨.notApplicable, .unmeasured, .value 0, 1, 8, 1, .unmeasured, ""⟩,
      "", "", ""⟩], ""⟩⟩

/-- The concrete document of the spec's concrete-scenario property. -/
def c6doc : JSON :=
  .obj [("log", .obj [("version", .str "1.2"),
    ("creator", .obj [("name", .str "x"), ("version", .str "1")]),
    ("entries", .arr [.obj [
      ("startedDateTime", .str "2020-01-01T00:00:00.000Z"),
      ("time", .num 10),
      ("request", .obj [("method", .str "GET"), ("url", .str "http://a/"),
        ("httpVersion", .str "HTTP/1.1"), ("cookies", .arr []),
        ("headers", .arr []), ("queryString", .arr []),
        ("headersSize", .num (-1)), ("bodySize", .num (-1))]),
      ("response", .obj [("status", .num 200), ("statusText", .str "OK"),
        ("httpVersion", .str "HTTP/1.1"), ("cookies", .arr []),
        ("headers", .arr []),
        ("content", .obj [("size", .num 0), ("mimeType", .str "text/plain")]),
        ("redirectURL", .str ""), ("headersSize", .num (-1)),
        ("bodySize", .num 0)]),
      ("cache", .obj []),
      ("timings", .obj [("send", .num 1), ("wait", .num 8),
        ("receive", .num 1)])]])])]

/-- Concrete timings exercising the absent and sentinel states. -/
def t2sample : Timings := ⟨.unmeasured, .notApplicable, .value 3, 1, 8, 1, .unmeasured, ""⟩

/-- Concrete page timings exercising the sentinel and absent states. -/
def pt2sample : PageTimings := ⟨.notApplicable, .unmeasured, "c"⟩

/-- An entry object whose startedDateTime string is malformed but which is
otherwise fully decodable. -/
def c4entryFields : Fields :=
  [("startedDateTime", .str "bogus"), ("time", .num 10),
    ("request", .obj [("method", .str "GET"), ("url", .str "http://a/"),
      ("httpVersion", .str "HTTP/1.1"), ("cookies", .arr []), ("headers", .arr []),
      ("queryString", .arr []), ("headersSize", .num (-1)), ("bodySize", .num (-1))]),
    ("response", .obj [("status", .num 200), ("statusText", .str "OK"),
      ("httpVersion", .str "HTTP/1.1"), ("cookies", .arr []), ("headers", .arr []),
      ("content", .obj [("size", .num 0), ("mimeType", .str "text/plain")]),
      ("redirectURL", .str ""), ("headersSize", .num (-1)), ("bodySize", .num 0)]),
    ("cache", .obj []),
    ("timings", .obj [("send", .num 1), ("wait", .num 8), ("receive", .num 1)])]

/-- The decoded entry sequence of the C4 sample log. -/
def c4es : List Entry := (mapE decodeEntry [.obj c4entryFields]).toOption.getD []

/-- Modelled from the spec: a response has a required field in its
zero-value/uninitialized state when its required content is missing or its
status holds the integer zero value. -/
def Response.hasUninit (r : Response) : Bool :=
  r.content.isNone || decide (r.status = 0)

/-- Modelled from the spec: an entry has a required field in its
zero-value/uninitialized state when one of its required sub-records is
missing, or its response has one. -/
def Entry.hasUninit (e : Entry) : Bool :=
  e.request.isNone ||
    (match e.response with
      | none => true
      | some r => r.hasUninit) ||
    e.cache.isNone || e.timings.isNone

/-- Modelled from the spec: a page has a required field in its zero-value
state when its required page timings record is missing. -/
def Page.hasUninit (p : Page) : Bool := p.pageTimings.isNone

/-- Modelled from the spec: a log has a required field in its zero-value
state when its required creator is missing, or some page or entry has
one. -/
def Log.hasUninit (l : Log) : Bool :=
  l.creator.isNone || l.pages.any Page.hasUninit || l.entries.any Entry.hasUninit

/-- Modelled from the spec: an archive has a required field in its
zero-value state when its log is missing or the log has one. -/
def HAR.hasUninit (a : HAR) : Bool :=
  match a.log with
  | none => true
  | some l => l.hasUninit

/-- A concrete response whose headersSize is the −1 sentinel and whose
bodySize is an explicit zero. -/
def c9resp : Response :=
  ⟨200, "OK", "HTTP/1.1", [], [], some ⟨0, .unmeasured, "text/plain", "", "", ""⟩,
    "", -1, 0, ""⟩

/-- No null value occurs anywhere in a document, at any nesting depth. -/
def JSON.noNull : JSON → Bool
  | .null => false
  | .bool _ => true
  | .num _ => true
  | .str _ => true
  | .arr [] => true
  | .arr (x :: xs) => x.noNull && JSON.noNull (.arr xs)
  | .obj [] => true
  | .obj ((_, v) :: fs) => v.noNull && JSON.noNull (.obj fs)

/-! ## Proof infrastructure. -/

@[simp] theorem ebind_ok {ε α β : Type} (a : α) (f : α → Except ε β) :
    (Except.ok a : Except ε α) >>= f = f a := rfl

@[simp] theorem ebind_error {ε α β : Type} (e : ε) (f : α → Except ε β) :
    (Except.error e : Except ε α) >>= f = .error e := rfl

theorem ebind_eq_ok {ε α β : Type} {x : Except ε α} {f : α → Except ε β} {b : β} :
    x >>= f = .ok b ↔ ∃ a, x = .ok a ∧ f a = .ok b := by
  cases x with
  | ok a => simp
  | error e => simp

@[simp] theorem lookupField_nil (key : String) : lookupField [] key = none := rfl

@[simp] theorem lookupField_cons (k : String) (v : JSON) (rest : Fields) (key : String) :
    lookupField ((k, v) :: rest) key = if k = key then some v else lookupField rest key := rfl

theorem lookupField_append (fs gs : Fields) (key : String) :
    lookupField (fs ++ gs) key =
      match lookupField fs key with
      | some v => some v
      | none => lookupField gs key := by
  induction fs with
  | nil => simp
  | cons p rest ih =>
    obtain ⟨k, v⟩ := p
    by_cases h : k = key <;> simp [h, ih]

/-- Appending an extra binding for a different key does not change any
lookup. -/
theorem lookupField_append_extra (fs : Fields) (k : String) (v : JSON) (key : String)
    (h : key ≠ k) : lookupField (fs ++ [(k, v)]) key = lookupField fs key := by
  rw [lookupField_append]
  cases hf : lookupField fs key with
  | some w => rfl
  | none =>
    have hk : ¬k = key := fun hc => h hc.symm
    simp [hk]

theorem mapE_map_ok {α : Type} (g : α → JSON) (f : JSON → Except DecodeError α)
    (xs : List α) (h : ∀ x ∈ xs, f (g x) = .ok x) :
    mapE f (xs.map g) = .ok xs := by
  induction xs with
  | nil => rfl
  | cons x rest ih =>
    simp only [List.map_cons, mapE, h x (by simp), ebind_ok,
      ih (fun y hy => h y (by simp [hy]))]

theorem mapE_mapEE_ok {α : Type} (g : α → Except EncodeError JSON)
    (f : JSON → Except DecodeError α) (xs : List α) (ys : List JSON)
    (hg : mapEE g xs = .ok ys)
    (h : ∀ x ∈ xs, ∀ j, g x = .ok j → f j = .ok x) :
    mapE f ys = .ok xs := by
  induction xs generalizing ys with
  | nil =>
    simp only [mapEE] at hg
    cases hg
    rfl
  | cons x rest ih =>
    cases hgx : g x with
    | error e =>
      simp only [mapEE, hgx, ebind_error] at hg
      exact Except.noConfusion hg
    | ok j =>
      cases hgr : mapEE g rest with
      | error e =>
        simp only [mapEE, hgx, hgr, ebind_ok, ebind_error] at hg
        exact Except.noConfusion hg
      | ok js =>
        simp only [mapEE, hgx, hgr, ebind_ok] at hg
        cases hg
        simp only [mapE, h x (by simp) j hgx, ebind_ok,
          ih js hgr (fun y hy => h y (by simp [hy]))]

/-- Length preservation of the effectful decode map. -/
theorem mapE_length {α : Type} (f : JSON → Except DecodeError α)
    (xs : List JSON) (ys : List α) (h : mapE f xs = .ok ys) :
    ys.length = xs.length := by
  induction xs generalizing ys with
  | nil =>
    simp only [mapE] at h
    cases h
    rfl
  | cons x rest ih =>
    cases hx : f x with
    | error e =>
      simp only [mapE, hx, ebind_error] at h
      exact Except.noConfusion h
    | ok y =>
      cases hr : mapE f rest with
      | error e =>
        simp only [mapE, hx, hr, ebind_ok, ebind_error] at h
        exact Except.noConfusion h
      | ok zs =>
        simp only [mapE, hx, hr, ebind_ok] at h
        cases h
        simp [ih zs hr]

/-- Pointwise decode of the effectful decode map. -/
theorem mapE_getElem {α : Type} (f : JSON → Except DecodeError α)
    (xs : List JSON) (ys : List α) (h : mapE f xs = .ok ys) (i : ℕ) (x : JSON)
    (hx : xs[i]? = some x) : ∃ y, ys[i]? = some y ∧ f x = .ok y := by
  induction xs generalizing ys i with
  | nil => simp at hx
  | cons z rest ih =>
    cases hz : f z with
    | error e =>
      simp only [mapE, hz, ebind_error] at h
      exact Except.noConfusion h
    | ok y =>
      cases hr : mapE f rest with
      | error e =>
        simp only [mapE, hz, hr, ebind_ok, ebind_error] at h
        exact Except.noConfusion h
      | ok zs =>
        simp only [mapE, hz, hr, ebind_ok] at h
        cases h
        cases i with
        | zero =>
          simp only [List.getElem?_cons_zero, Option.some.injEq] at hx
          exact ⟨y, by simp, hx ▸ hz⟩
        | succ n =>
          simp only [List.getElem?_cons_succ] at hx
          obtain ⟨w, hw, hfw⟩ := ih zs hr n hx
          exact ⟨w, by simpa using hw, hfw⟩

/-! ## Field-level lookup and round-trip lemmas. -/

@[simp] theorem segs_nil : segs [] = ([] : Fields) := rfl

@[simp] theorem or_some_left {α : Type} (a : α) (o : Option α) : (some a).or o = some a := rfl

@[simp] theorem lookup_segs_cons (k : String) (o : Option JSON)
    (rest : List (String × Option JSON)) (key : String) :
    lookupField (segs ((k, o) :: rest)) key =
      if k = key then o.or (lookupField (segs rest) key)
      else lookupField (segs rest) key := by
  cases o with
  | none => simp [segs]
  | some j =>
    by_cases h : k = key <;> simp [segs, h]

@[simp] theorem decodeVersion_none : decodeVersion none = .ok "1.1" := rfl

@[simp] theorem decodeVersion_str (s : String) : decodeVersion (some (.str s)) = .ok s := rfl

@[simp] theorem decodeStr_none : decodeStr none = .ok "" := rfl

@[simp] theorem decodeStr_str (s : String) : decodeStr (some (.str s)) = .ok s := rfl

@[simp] theorem decodeStr_strOpt (s : String) : decodeStr (strOpt s) = .ok s := by
  by_cases h : s = "" <;> simp [strOpt, h]

@[simp] theorem decodeNum_num (q : ℚ) : decodeNum (some (.num q)) = .ok q := rfl

@[simp] theorem decodeBool_bool (b : Bool) : decodeBool (some (.bool b)) = .ok b := rfl

@[simp] theorem decodeInt_intCast (i : Int) : decodeInt (some (.num (i : ℚ))) = .ok i := by
  simp [decodeInt, Rat.den_intCast, Rat.num_intCast]

theorem decodeOpt3Num_json (o : Opt3 ℚ) (h : Opt3.wfNum o = true) :
    decodeOpt3Num (opt3NumJson o) = .ok o := by
  cases o with
  | unmeasured => rfl
  | notApplicable => simp [opt3NumJson, decodeOpt3Num]
  | value q =>
    simp only [Opt3.wfNum, decide_eq_true_eq] at h
    simp [opt3NumJson, decodeOpt3Num, h]

theorem decodeOpt3Int_json (o : Opt3 Int) (h : Opt3.wfInt o = true) :
    decodeOpt3Int (opt3IntJson o) = .ok o := by
  cases o with
  | unmeasured => rfl
  | notApplicable => simp [opt3IntJson, decodeOpt3Int]
  | value n =>
    simp only [Opt3.wfInt, decide_eq_true_eq] at h
    have h1 : ((n : ℤ) : ℚ) ≠ -1 := by exact_mod_cast h
    simp [opt3IntJson, decodeOpt3Int, h1, Rat.den_intCast, Rat.num_intCast]

theorem decodeTimestamp_raw (ts : Timestamp) (h : ts.wf = true) :
    decodeTimestamp (some (.str ts.raw)) = .ok ts := by
  cases ts with
  | valid s =>
    simp only [Timestamp.wf] at h
    simp [decodeTimestamp, Timestamp.raw, h]
  | invalid s =>
    simp only [Timestamp.wf, Bool.not_eq_true'] at h
    simp [decodeTimestamp, Timestamp.raw, h]

theorem decodeOptObj_map {α : Type} (f : JSON → Except DecodeError α) (g : α → JSON)
    (o : Option α) (h : ∀ x, f (g x) = .ok x) :
    decodeOptObj f (o.map g) = .ok o := by
  cases o with
  | none => rfl
  | some x => simp [decodeOptObj, h x]

theorem decodeArr_map_ok {α : Type} (f : JSON → Except DecodeError α) (g : α → JSON)
    (xs : List α) (h : ∀ x ∈ xs, f (g x) = .ok x) :
    decodeArr f (some (.arr (xs.map g))) = .ok xs := by
  simp [decodeArr, mapE_map_ok g f xs h]

/-! ## Structure-level round-trip lemmas. -/

theorem decodeCreator_encode (c : Creator) : decodeCreator (encodeCreator c) = .ok c := by
  simp [decodeCreator, encodeCreator, encodeCreatorFields, decodeCreatorFields, asObj]

theorem decodeBrowser_encode (b : Browser) : decodeBrowser (encodeBrowser b) = .ok b := by
  simp [decodeBrowser, encodeBrowser, encodeBrowserFields, decodeBrowserFields, asObj]

theorem decodeNameValuePair_encode (p : NameValuePair) :
    decodeNameValuePair (encodeNameValuePair p) = .ok p := by
  simp [decodeNameValuePair, encodeNameValuePair, encodeNameValuePairFields,
    decodeNameValuePairFields, asObj]

theorem decodeCookie_encode (c : Cookie) : decodeCookie (encodeCookie c) = .ok c := by
  simp [decodeCookie, encodeCookie, encodeCookieFields, decodeCookieFields, asObj]

theorem decodeParam_encode (p : Param) : decodeParam (encodeParam p) = .ok p := by
  simp [decodeParam, encodeParam, encodeParamFields, decodeParamFields, asObj]

theorem decodeArr_enc {α : Type} (f : JSON → Except DecodeError α) (g : α → JSON)
    (h : ∀ x, f (g x) = .ok x) (xs : List α) :
    decodeArr f (some (.arr (xs.map g))) = .ok xs :=
  decodeArr_map_ok f g xs (fun x _ => h x)

theorem decodeOptObj_enc {α : Type} (f : JSON → Except DecodeError α) (g : α → JSON)
    (h : ∀ x, f (g x) = .ok x) (o : Option α) :
    decodeOptObj f (o.map g) = .ok o :=
  decodeOptObj_map f g o h

theorem decodePostData_encode (d : PostData) : decodePostData (encodePostData d) = .ok d := by
  simp [decodePostData, encodePostData, encodePostDataFields, decodePostDataFields, asObj,
    decodeArr_enc _ _ decodeParam_encode]

theorem decodeContent_encode (c : Content) (h : c.wf = true) :
    decodeContent (encodeContent c) = .ok c := by
  simp [decodeContent, encodeContent, encodeContentFields, decodeContentFields, asObj,
    decodeOpt3Int_json c.compression h]

theorem decodeCacheData_encode (d : CacheData) :
    decodeCacheData (encodeCacheData d) = .ok d := by
  simp [decodeCacheData, encodeCacheData, encodeCacheDataFields, decodeCacheDataFields, asObj]

theorem decodeCache_encode (c : Cache) : decodeCache (encodeCache c) = .ok c := by
  simp [decodeCache, encodeCache, encodeCacheFields, decodeCacheFields, asObj,
    decodeOptObj_enc _ _ decodeCacheData_encode]

theorem decodeTimings_encode (t : Timings) (h : t.wf = true) :
    decodeTimings (encodeTimings t) = .ok t := by
  simp only [Timings.wf, Bool.and_eq_true] at h
  obtain ⟨⟨⟨hb, hd⟩, hc⟩, hs⟩ := h
  simp [decodeTimings, encodeTimings, encodeTimingsFields, decodeTimingsFields, asObj,
    decodeOpt3Num_json _ hb, decodeOpt3Num_json _ hd, decodeOpt3Num_json _ hc,
    decodeOpt3Num_json _ hs]

theorem decodePageTimings_encode (p : PageTimings) (h : p.wf = true) :
    decodePageTimings (encodePageTimings p) = .ok p := by
  simp only [PageTimings.wf, Bool.and_eq_true] at h
  obtain ⟨hcl, hl⟩ := h
  simp [decodePageTimings, encodePageTimings, encodePageTimingsFields,
    decodePageTimingsFields, asObj, decodeOpt3Num_json _ hcl, decodeOpt3Num_json _ hl]

theorem decodeRequest_encode (r : Request) : decodeRequest (encodeRequest r) = .ok r := by
  simp [decodeRequest, encodeRequest, encodeRequestFields, decodeRequestFields, asObj,
    decodeArr_enc _ _ decodeCookie_encode, decodeArr_enc _ _ decodeNameValuePair_encode,
    decodeOptObj_enc _ _ decodePostData_encode]

theorem decodeResponse_encode (r : Response) (j : JSON) (hw : r.wf = true)
    (he : encodeResponse r = .ok j) : decodeResponse j = .ok r := by
  obtain ⟨status, statusText, httpVersion, cookies, headers, content, redirectURL,
    hsz, bsz, comment⟩ := r
  cases content with
  | none => simp [encodeResponse, required] at he
  | some c =>
    simp only [encodeResponse, required, ebind_ok] at he
    by_cases h0 : status = 0
    · simp [h0] at he
    · rw [if_neg h0] at he
      cases he
      have hcw : c.wf = true := by simpa [Response.wf, optWf] using hw
      simp [decodeResponse, asObj, encodeResponseFields, decodeResponseFields, requireKey,
        decodeContent_encode c hcw, decodeArr_enc _ _ decodeCookie_encode,
        decodeArr_enc _ _ decodeNameValuePair_encode]

theorem decodeEntry_encode (e : Entry) (j : JSON) (hw : e.wf = true)
    (he : encodeEntry e = .ok j) : decodeEntry j = .ok e := by
  obtain ⟨pageref, started, time, request, response, cache, timings, sip, conn, comment⟩ := e
  cases request with
  | none => simp [encodeEntry, required] at he
  | some req =>
  cases response with
  | none => simp [encodeEntry, required] at he
  | some rsp =>
  cases hrsp : encodeResponse rsp with
  | error er => simp [encodeEntry, required, hrsp] at he
  | ok rspJ =>
  cases cache with
  | none => simp [encodeEntry, required, hrsp] at he
  | some ca =>
  cases timings with
  | none => simp [encodeEntry, required, hrsp] at he
  | some t =>
    simp only [encodeEntry, required, hrsp, ebind_ok] at he
    cases he
    simp only [Entry.wf, optWf, Bool.and_eq_true] at hw
    obtain ⟨⟨h1, h2⟩, h3⟩ := hw
    simp [decodeEntry, asObj, decodeEntryFields, requireKey,
      decodeTimestamp_raw started h1, decodeRequest_encode req,
      decodeResponse_encode rsp rspJ h2 hrsp, decodeCache_encode ca,
      decodeTimings_encode t h3]

theorem decodePage_encode (p : Page) (j : JSON) (hw : p.wf = true)
    (he : encodePage p = .ok j) : decodePage j = .ok p := by
  obtain ⟨started, id, title, pageTimings, comment⟩ := p
  cases pageTimings with
  | none => simp [encodePage, required] at he
  | some pt =>
    simp only [encodePage, required, ebind_ok] at he
    cases he
    simp only [Page.wf, optWf, Bool.and_eq_true] at hw
    obtain ⟨h1, h2⟩ := hw
    simp [decodePage, asObj, decodePageFields, requireKey,
      decodeTimestamp_raw started h1, decodePageTimings_encode pt h2]

theorem decodeLog_encode (l : Log) (j : JSON) (hw : l.wf = true)
    (he : encodeLog l = .ok j) : decodeLog j = .ok l := by
  obtain ⟨version, creator, browser, pages, entries, comment⟩ := l
  cases creator with
  | none => simp [encodeLog, required] at he
  | some cr =>
  cases hp : mapEE encodePage pages with
  | error er => simp [encodeLog, required, hp] at he
  | ok pagesJ =>
  cases hent : mapEE encodeEntry entries with
  | error er => simp [encodeLog, required, hp, hent] at he
  | ok entriesJ =>
    simp only [encodeLog, required, hp, hent, ebind_ok] at he
    cases he
    simp only [Log.wf, Bool.and_eq_true, List.all_eq_true] at hw
    obtain ⟨hpw, hew⟩ := hw
    have hdp : mapE decodePage pagesJ = .ok pages :=
      mapE_mapEE_ok _ _ _ _ hp (fun p hmem pj hpj => decodePage_encode p pj (hpw p hmem) hpj)
    have hde : mapE decodeEntry entriesJ = .ok entries :=
      mapE_mapEE_ok _ _ _ _ hent (fun x hmem xj hxj => decodeEntry_encode x xj (hew x hmem) hxj)
    by_cases hpe : pages.isEmpty
    · have hnil : pages = [] := by simpa using hpe
      subst hnil
      simp [decodeLog, asObj, decodeLogFields, requireKey, decodeCreator_encode,
        decodeOptObj_enc _ _ decodeBrowser_encode, hde, decodeArr, decodeArrReq]
    · simp [decodeLog, asObj, decodeLogFields, requireKey, hpe, decodeCreator_encode,
        decodeOptObj_enc _ _ decodeBrowser_encode, hdp, hde, decodeArr, decodeArrReq]

theorem decode_encodeHAR (a : HAR) (j : JSON) (hw : a.wf = true)
    (he : encodeHAR a = .ok j) : decode j = .ok a := by
  obtain ⟨lg⟩ := a
  cases lg with
  | none => simp [encodeHAR, required] at he
  | some l =>
  cases hl : encodeLog l with
  | error er => simp [encodeHAR, required, hl] at he
  | ok lj =>
    simp only [encodeHAR, required, hl, ebind_ok] at he
    cases he
    have hlw : l.wf = true := by simpa [HAR.wf, optWf] using hw
    simp [decode, decodeLog_encode l lj hlw hl]

/-! ## Claim theorems. -/

/-- C1: for every valid Archive value `a`, Decode(Encode(a)) is deep-equal
to `a`, preserving exactly the three-way distinction between an absent
optional numeric field (`Opt3.unmeasured`), the explicit −1 sentinel
(`Opt3.notApplicable`) and an explicit present zero (`Opt3.value 0`) across
every optional numeric field — the distinction is part of the `HAR` record
and the equality `decode j = .ok a` preserves it exactly. -/
theorem roundtrip_C1 (a : HAR) (j : JSON) (hw : a.wf = true)
    (he : encodeHAR a = .ok j) : decode j = .ok a :=
  decode_encodeHAR a j hw he

theorem roundtrip_C1_witness :
    decode ((encodeHAR c1sample).toOption.getD JSON.null) = .ok c1sample :=
  roundtrip_C1 c1sample ((encodeHAR c1sample).toOption.getD JSON.null)
    (by decide) (by rfl)

/-- C6: Decode of the spec's concrete document yields an archive whose
single entry has `Response.bodySize = 0` — the known-zero sense, not the −1
"unknown" sentinel — and whose timings sum to 10, equal to the entry's
time. -/
theorem concreteScenario_C6 :
    ∃ (a : HAR) (l : Log) (e : Entry) (r : Response) (t : Timings),
      decode c6doc = .ok a ∧ a.log = some l ∧ l.entries = [e] ∧
      e.response = some r ∧ r.bodySize = 0 ∧ r.bodySize ≠ -1 ∧
      e.timings = some t ∧ Timings.total t = 10 ∧ e.time = 10 ∧
      Timings.total t = e.time := by
  exact ⟨_, _, _, _, _, rfl, rfl, rfl, rfl, rfl, by decide, rfl,
    by norm_num [Timings.total, Opt3.timeVal], rfl,
    by norm_num [Timings.total, Opt3.timeVal]⟩

theorem lookupField_append_right (fs gs : Fields) (key : String)
    (h : lookupField fs key = none) :
    lookupField (fs ++ gs) key = lookupField gs key := by
  rw [lookupField_append, h]

@[simp] theorem noNull_bool (b : Bool) : (JSON.bool b).noNull = true := by
  simp [JSON.noNull]

@[simp] theorem noNull_num (q : ℚ) : (JSON.num q).noNull = true := by
  simp [JSON.noNull]

@[simp] theorem noNull_str (s : String) : (JSON.str s).noNull = true := by
  simp [JSON.noNull]

@[simp] theorem noNull_arr_nil : (JSON.arr []).noNull = true := by
  simp [JSON.noNull]

@[simp] theorem noNull_arr_cons (x : JSON) (xs : List JSON) :
    (JSON.arr (x :: xs)).noNull = (x.noNull && (JSON.arr xs).noNull) := by
  simp [JSON.noNull]

@[simp] theorem noNull_obj_nil : (JSON.obj []).noNull = true := by
  simp [JSON.noNull]

@[simp] theorem noNull_obj_cons (k : String) (v : JSON) (fs : Fields) :
    (JSON.obj ((k, v) :: fs)).noNull = (v.noNull && (JSON.obj fs).noNull) := by
  simp [JSON.noNull]

theorem noNull_strOpt (s : String) (j : JSON) (h : strOpt s = some j) :
    j.noNull = true := by
  by_cases hs : s = ""
  · simp [strOpt, hs] at h
  · simp only [strOpt, if_neg hs, Option.some.injEq] at h
    subst h
    simp

theorem noNull_opt3NumJson (o : Opt3 ℚ) (j : JSON) (h : opt3NumJson o = some j) :
    j.noNull = true := by
  cases o with
  | unmeasured => simp [opt3NumJson] at h
  | notApplicable =>
    simp only [opt3NumJson, Option.some.injEq] at h
    subst h
    simp
  | value q =>
    simp only [opt3NumJson, Option.some.injEq] at h
    subst h
    simp

theorem noNull_opt3IntJson (o : Opt3 Int) (j : JSON) (h : opt3IntJson o = some j) :
    j.noNull = true := by
  cases o with
  | unmeasured => simp [opt3IntJson] at h
  | notApplicable =>
    simp only [opt3IntJson, Option.some.injEq] at h
    subst h
    simp
  | value n =>
    simp only [opt3IntJson, Option.some.injEq] at h
    subst h
    simp

theorem noNull_arr_of_all (ys : List JSON) (h : ∀ y ∈ ys, y.noNull = true) :
    (JSON.arr ys).noNull = true := by
  induction ys with
  | nil => simp
  | cons y rest ih =>
    simp [h y (by simp), ih (fun z hz => h z (by simp [hz]))]

theorem noNull_arr_map {α : Type} (g : α → JSON) (xs : List α)
    (h : ∀ x ∈ xs, (g x).noNull = true) : (JSON.arr (xs.map g)).noNull = true := by
  apply noNull_arr_of_all
  intro y hy
  obtain ⟨x, hx, rfl⟩ := List.mem_map.mp hy
  exact h x hx

theorem noNull_segs (l : List (String × Option JSON))
    (h : ∀ p ∈ l, ∀ j, p.2 = some j → j.noNull = true) :
    (JSON.obj (segs l)).noNull = true := by
  induction l with
  | nil => simp [segs]
  | cons p rest ih =>
    obtain ⟨k, o⟩ := p
    cases o with
    | none =>
      simp only [segs]
      exact ih (fun q hq j hj => h q (by simp [hq]) j hj)
    | some v =>
      simp only [segs, noNull_obj_cons, Bool.and_eq_true]
      exact ⟨h (k, some v) (by simp) v rfl,
        ih (fun q hq j hj => h q (by simp [hq]) j hj)⟩

theorem noNull_encodeCreator (c : Creator) : (encodeCreator c).noNull = true := by
  rw [encodeCreator, encodeCreatorFields]
  apply noNull_segs
  intro p hp j hj
  simp only [List.mem_cons, List.not_mem_nil, or_false] at hp
  rcases hp with h | h | h <;> subst h <;>
    first
      | (injection hj with hj; subst hj; simp)
      | exact noNull_strOpt _ _ hj

theorem noNull_encodeBrowser (b : Browser) : (encodeBrowser b).noNull = true := by
  rw [encodeBrowser, encodeBrowserFields]
  apply noNull_segs
  intro p hp j hj
  simp only [List.mem_cons, List.not_mem_nil, or_false] at hp
  rcases hp with h | h | h <;> subst h <;>
    first
      | (injection hj with hj; subst hj; simp)
      | exact noNull_strOpt _ _ hj

theorem noNull_encodeNameValuePair (p : NameValuePair) :
    (encodeNameValuePair p).noNull = true := by
  rw [encodeNameValuePair, encodeNameValuePairFields]
  apply noNull_segs
  intro q hq j hj
  simp only [List.mem_cons, List.not_mem_nil, or_false] at hq
  rcases hq with h | h | h <;> subst h <;>
    first
      | (injection hj with hj; subst hj; simp)
      | exact noNull_strOpt _ _ hj

theorem noNull_encodeCookie (c : Cookie) : (encodeCookie c).noNull = true := by
  rw [encodeCookie, encodeCookieFields]
  apply noNull_segs
  intro p hp j hj
  simp only [List.mem_cons, List.not_mem_nil, or_false] at hp
  rcases hp with h | h | h | h | h | h | h | h <;> subst h <;>
    first
      | (injection hj with hj; subst hj; simp)
      | exact noNull_strOpt _ _ hj

theorem noNull_encodeParam (p : Param) : (encodeParam p).noNull = true := by
  rw [encodeParam, encodeParamFields]
  apply noNull_segs
  intro q hq j hj
  simp only [List.mem_cons, List.not_mem_nil, or_false] at hq
  rcases hq with h | h | h | h | h <;> subst h <;>
    first
      | (injection hj with hj; subst hj; simp)
      | exact noNull_strOpt _ _ hj

theorem noNull_encodePostData (d : PostData) : (encodePostData d).noNull = true := by
  rw [encodePostData, encodePostDataFields]
  apply noNull_segs
  intro q hq j hj
  simp only [List.mem_cons, List.not_mem_nil, or_false] at hq
  rcases hq with h | h | h | h <;> subst h <;>
    first
      | (injection hj with hj; subst hj; simp)
      | (injection hj with hj; subst hj;
          exact noNull_arr_map _ _ (fun x _ => noNull_encodeParam x))
      | exact noNull_strOpt _ _ hj

theorem noNull_encodeContent (c : Content) : (encodeContent c).noNull = true := by
  rw [encodeContent, encodeContentFields]
  apply noNull_segs
  intro q hq j hj
  simp only [List.mem_cons, List.not_mem_nil, or_false] at hq
  rcases hq with h | h | h | h | h | h <;> subst h <;>
    first
      | (injection hj with hj; subst hj; simp)
      | exact noNull_opt3IntJson _ _ hj
      | exact noNull_strOpt _ _ hj

theorem noNull_encodeCacheData (d : CacheData) : (encodeCacheData d).noNull = true := by
  rw [encodeCacheData, encodeCacheDataFields]
  apply noNull_segs
  intro q hq j hj
  simp only [List.mem_cons, List.not_mem_nil, or_false] at hq
  rcases hq with h | h | h | h | h <;> subst h <;>
    first
      | (injection hj with hj; subst hj; simp)
      | exact noNull_strOpt _ _ hj

theorem noNull_encodeCache (c : Cache) : (encodeCache c).noNull = true := by
  rw [encodeCache, encodeCacheFields]
  apply noNull_segs
  intro q hq j hj
  simp only [List.mem_cons, List.not_mem_nil, or_false] at hq
  rcases hq with h | h | h <;> subst h <;>
    first
      | (obtain ⟨d, hd, rfl⟩ := Option.map_eq_some'.mp hj; exact noNull_encodeCacheData d)
      | exact noNull_strOpt _ _ hj

theorem noNull_encodeTimings (t : Timings) : (encodeTimings t).noNull = true := by
  rw [encodeTimings, encodeTimingsFields]
  apply noNull_segs
  intro q hq j hj
  simp only [List.mem_cons, List.not_mem_nil, or_false] at hq
  rcases hq with h | h | h | h | h | h | h | h <;> subst h <;>
    first
      | (injection hj with hj; subst hj; simp)
      | exact noNull_opt3NumJson _ _ hj
      | exact noNull_strOpt _ _ hj

theorem noNull_encodePageTimings (pt : PageTimings) :
    (encodePageTimings pt).noNull = true := by
  rw [encodePageTimings, encodePageTimingsFields]
  apply noNull_segs
  intro q hq j hj
  simp only [List.mem_cons, List.not_mem_nil, or_false] at hq
  rcases hq with h | h | h <;> subst h <;>
    first
      | exact noNull_opt3NumJson _ _ hj
      | exact noNull_strOpt _ _ hj

theorem noNull_encodeRequest (r : Request) : (encodeRequest r).noNull = true := by
  rw [encodeRequest, encodeRequestFields]
  apply noNull_segs
  intro q hq j hj
  simp only [List.mem_cons, List.not_mem_nil, or_false] at hq
  rcases hq with h | h | h | h | h | h | h | h | h | h <;> subst h <;>
    first
      | (injection hj with hj; subst hj; simp)
      | (injection hj with hj; subst hj;
          exact noNull_arr_map _ _ (fun x _ => noNull_encodeCookie x))
      | (injection hj with hj; subst hj;
          exact noNull_arr_map _ _ (fun x _ => noNull_encodeNameValuePair x))
      | (obtain ⟨d, hd, rfl⟩ := Option.map_eq_some'.mp hj; exact noNull_encodePostData d)
      | exact noNull_strOpt _ _ hj

theorem noNull_encodeResponseFields (r : Response) (cj : JSON) (hcj : cj.noNull = true) :
    (JSON.obj (encodeResponseFields r cj)).noNull = true := by
  rw [encodeResponseFields]
  apply noNull_segs
  intro q hq j hj
  simp only [List.mem_cons, List.not_mem_nil, or_false] at hq
  rcases hq with h | h | h | h | h | h | h | h | h | h <;> subst h <;>
    first
      | (injection hj with hj; subst hj; first | simp | exact hcj)
      | (injection hj with hj; subst hj;
          exact noNull_arr_map _ _ (fun x _ => noNull_encodeCookie x))
      | (injection hj with hj; subst hj;
          exact noNull_arr_map _ _ (fun x _ => noNull_encodeNameValuePair x))
      | exact noNull_strOpt _ _ hj

theorem noNull_encodeResponse (r : Response) (j : JSON)
    (h : encodeResponse r = .ok j) : j.noNull = true := by
  cases hc : r.content with
  | none =>
    rw [encodeResponse, hc] at h
    exact Except.noConfusion h
  | some c =>
    rw [encodeResponse, hc] at h
    simp only [required, ebind_ok] at h
    by_cases h0 : r.status = 0
    · rw [if_pos h0] at h
      exact Except.noConfusion h
    · rw [if_neg h0] at h
      injection h with h
      subst h
      exact noNull_encodeResponseFields r (encodeContent c) (noNull_encodeContent c)

theorem noNull_encodeEntry (e : Entry) (j : JSON) (h : encodeEntry e = .ok j) :
    j.noNull = true := by
  cases hreq : e.request with
  | none => rw [encodeEntry, hreq] at h; exact Except.noConfusion h
  | some req =>
  cases hrsp : e.response with
  | none =>
    rw [encodeEntry, hreq, hrsp] at h
    exact Except.noConfusion h
  | some rsp =>
  cases henc : encodeResponse rsp with
  | error er =>
    rw [encodeEntry, hreq, hrsp] at h
    simp only [required, ebind_ok, henc, ebind_error] at h
    exact Except.noConfusion h
  | ok rspJ =>
  cases hca : e.cache with
  | none =>
    rw [encodeEntry, hreq, hrsp] at h
    simp only [required, ebind_ok, henc, ebind_error, hca] at h
    exact Except.noConfusion h
  | some ca =>
  cases hti : e.timings with
  | none =>
    rw [encodeEntry, hreq, hrsp] at h
    simp only [required, ebind_ok, henc, ebind_error, hca, hti] at h
    exact Except.noConfusion h
  | some t =>
    rw [encodeEntry, hreq, hrsp] at h
    simp only [required, ebind_ok, henc, hca, hti] at h
    injection h with h
    subst h
    apply noNull_segs
    intro q hq j hj
    simp only [List.mem_cons, List.not_mem_nil, or_false] at hq
    rcases hq with hh | hh | hh | hh | hh | hh | hh | hh | hh | hh <;> subst hh <;>
      first
        | (injection hj with hj; subst hj;
            first
              | simp
              | exact noNull_encodeRequest req
              | exact noNull_encodeResponse rsp _ henc
              | exact noNull_encodeCache ca
              | exact noNull_encodeTimings t)
        | exact noNull_strOpt _ _ hj

theorem noNull_encodePage (p : Page) (j : JSON) (h : encodePage p = .ok j) :
    j.noNull = true := by
  cases hpt : p.pageTimings with
  | none => rw [encodePage, hpt] at h; exact Except.noConfusion h
  | some pt =>
    rw [encodePage, hpt] at h
    simp only [required, ebind_ok] at h
    injection h with h
    subst h
    apply noNull_segs
    intro q hq j hj
    simp only [List.mem_cons, List.not_mem_nil, or_false] at hq
    rcases hq with hh | hh | hh | hh | hh <;> subst hh <;>
      first
        | (injection hj with hj; subst hj;
            first
              | simp
              | exact noNull_encodePageTimings pt)
        | exact noNull_strOpt _ _ hj

theorem noNull_mapEE {α : Type} (g : α → Except EncodeError JSON) (xs : List α)
    (ys : List JSON) (hg : mapEE g xs = .ok ys)
    (h : ∀ x ∈ xs, ∀ j, g x = .ok j → j.noNull = true) :
    ∀ y ∈ ys, y.noNull = true := by
  induction xs generalizing ys with
  | nil =>
    simp only [mapEE] at hg
    cases hg
    simp
  | cons x rest ih =>
    cases hgx : g x with
    | error e =>
      simp only [mapEE, hgx, ebind_error] at hg
      exact Except.noConfusion hg
    | ok j =>
      cases hgr : mapEE g rest with
      | error e =>
        simp only [mapEE, hgx, hgr, ebind_ok, ebind_error] at hg
        exact Except.noConfusion hg
      | ok js =>
        simp only [mapEE, hgx, hgr, ebind_ok] at hg
        cases hg
        intro y hy
        simp only [List.mem_cons] at hy
        rcases hy with hy | hy
        · subst hy
          exact h x (by simp) y hgx
        · exact ih js hgr (fun z hz jz hjz => h z (by simp [hz]) jz hjz) y hy

theorem noNull_encodeLog (l : Log) (j : JSON) (h : encodeLog l = .ok j) :
    j.noNull = true := by
  cases hcr : l.creator with
  | none => rw [encodeLog, hcr] at h; exact Except.noConfusion h
  | some cr =>
  cases hp : mapEE encodePage l.pages with
  | error er =>
    rw [encodeLog, hcr] at h
    simp only [required, ebind_ok, hp, ebind_error] at h
    exact Except.noConfusion h
  | ok pagesJ =>
  cases hent : mapEE encodeEntry l.entries with
  | error er =>
    rw [encodeLog, hcr] at h
    simp only [required, ebind_ok, hp, hent, ebind_error] at h
    exact Except.noConfusion h
  | ok entriesJ =>
    rw [encodeLog, hcr] at h
    simp only [required, ebind_ok, hp, hent] at h
    injection h with h
    subst h
    apply noNull_segs
    intro q hq j hj
    simp only [List.mem_cons, List.not_mem_nil, or_false] at hq
    rcases hq with hh | hh | hh | hh | hh | hh
    · subst hh
      injection hj with hj
      subst hj
      simp
    · subst hh
      injection hj with hj
      subst hj
      exact noNull_encodeCreator cr
    · subst hh
      obtain ⟨b, hb, rfl⟩ := Option.map_eq_some'.mp hj
      exact noNull_encodeBrowser b
    · subst hh
      by_cases hpe : l.pages.isEmpty
      · simp [hpe] at hj
      · rw [show (("pages", if l.pages.isEmpty then none
            else some (JSON.arr pagesJ)) : String × Option JSON).2
            = some (JSON.arr pagesJ) from by rw [if_neg hpe]] at hj
        injection hj with hj
        subst hj
        exact noNull_arr_of_all _ (noNull_mapEE encodePage l.pages pagesJ hp
          (fun x _ jx hjx => noNull_encodePage x jx hjx))
    · subst hh
      injection hj with hj
      subst hj
      exact noNull_arr_of_all _ (noNull_mapEE encodeEntry l.entries entriesJ hent
        (fun x _ jx hjx => noNull_encodeEntry x jx hjx))
    · subst hh
      exact noNull_strOpt _ _ hj

theorem noNull_encodeHAR (a : HAR) (j : JSON) (h : encodeHAR a = .ok j) :
    j.noNull = true := by
  cases hl : a.log with
  | none => rw [encodeHAR, hl] at h; exact Except.noConfusion h
  | some l =>
    cases he : encodeLog l with
    | error e =>
      rw [encodeHAR, hl] at h
      simp only [required, ebind_ok, he, ebind_error] at h
      exact Except.noConfusion h
    | ok lj =>
      rw [encodeHAR, hl] at h
      simp only [required, ebind_ok, he] at h
      injection h with h
      subst h
      simp [noNull_encodeLog l lj he]

/-- C2: Encode never emits a key for any optional field of the schema that
is in its absent state (so null and empty placeholders never stand in for
absence — in fact no null appears anywhere in any encoded document), and it
always emits the key, with the literal value −1, for every optional numeric
field explicitly set to the sentinel. -/
theorem omission_C2 :
    (∀ c : Creator, c.comment = "" →
      lookupField (encodeCreatorFields c) "comment" = none) ∧
    (∀ b : Browser, b.comment = "" →
      lookupField (encodeBrowserFields b) "comment" = none) ∧
    (∀ p : NameValuePair, p.comment = "" →
      lookupField (encodeNameValuePairFields p) "comment" = none) ∧
    (∀ c : Cookie,
      (c.path = "" → lookupField (encodeCookieFields c) "path" = none) ∧
      (c.domain = "" → lookupField (encodeCookieFields c) "domain" = none) ∧
      (c.expires = "" → lookupField (encodeCookieFields c) "expires" = none) ∧
      (c.comment = "" → lookupField (encodeCookieFields c) "comment" = none)) ∧
    (∀ p : Param,
      (p.value = "" → lookupField (encodeParamFields p) "value" = none) ∧
      (p.fileName = "" → lookupField (encodeParamFields p) "fileName" = none) ∧
      (p.contentType = "" → lookupField (encodeParamFields p) "contentType" = none) ∧
      (p.comment = "" → lookupField (encodeParamFields p) "comment" = none)) ∧
    (∀ d : PostData, d.comment = "" →
      lookupField (encodePostDataFields d) "comment" = none) ∧
    (∀ c : Content,
      (c.compression = .unmeasured →
        lookupField (encodeContentFields c) "compression" = none) ∧
      (c.compression = .notApplicable →
        lookupField (encodeContentFields c) "compression" = some (.num (-1))) ∧
      (c.text = "" → lookupField (encodeContentFields c) "text" = none) ∧
      (c.encoding = "" → lookupField (encodeContentFields c) "encoding" = none) ∧
      (c.comment = "" → lookupField (encodeContentFields c) "comment" = none)) ∧
    (∀ d : CacheData,
      (d.expires = "" → lookupField (encodeCacheDataFields d) "expires" = none) ∧
      (d.comment = "" → lookupField (encodeCacheDataFields d) "comment" = none)) ∧
    (∀ c : Cache,
      (c.beforeRequest = none →
        lookupField (encodeCacheFields c) "beforeRequest" = none) ∧
      (c.afterRequest = none →
        lookupField (encodeCacheFields c) "afterRequest" = none) ∧
      (c.comment = "" → lookupField (encodeCacheFields c) "comment" = none)) ∧
    (∀ t : Timings,
      (t.blocked = .unmeasured → lookupField (encodeTimingsFields t) "blocked" = none) ∧
      (t.blocked = .notApplicable →
        lookupField (encodeTimingsFields t) "blocked" = some (.num (-1))) ∧
      (t.dns = .unmeasured → lookupField (encodeTimingsFields t) "dns" = none) ∧
      (t.dns = .notApplicable →
        lookupField (encodeTimingsFields t) "dns" = some (.num (-1))) ∧
      (t.connect = .unmeasured → lookupField (encodeTimingsFields t) "connect" = none) ∧
      (t.connect = .notApplicable →
        lookupField (encodeTimingsFields t) "connect" = some (.num (-1))) ∧
      (t.ssl = .unmeasured → lookupField (encodeTimingsFields t) "ssl" = none) ∧
      (t.ssl = .notApplicable →
        lookupField (encodeTimingsFields t) "ssl" = some (.num (-1))) ∧
      (t.comment = "" → lookupField (encodeTimingsFields t) "comment" = none)) ∧
    (∀ pt : PageTimings,
      (pt.onContentLoad = .unmeasured →
        lookupField (encodePageTimingsFields pt) "onContentLoad" = none) ∧
      (pt.onContentLoad = .notApplicable →
        lookupField (encodePageTimingsFields pt) "onContentLoad" = some (.num (-1))) ∧
      (pt.onLoad = .unmeasured →
        lookupField (encodePageTimingsFields pt) "onLoad" = none) ∧
      (pt.onLoad = .notApplicable →
        lookupField (encodePageTimingsFields pt) "onLoad" = some (.num (-1))) ∧
      (pt.comment = "" → lookupField (encodePageTimingsFields pt) "comment" = none)) ∧
    (∀ r : Request,
      (r.postData = none → lookupField (encodeRequestFields r) "postData" = none) ∧
      (r.comment = "" → lookupField (encodeRequestFields r) "comment" = none)) ∧
    (∀ (r : Response) (cj : JSON), r.comment = "" →
      lookupField (encodeResponseFields r cj) "comment" = none) ∧
    (∀ (l : Log) (fs : Fields), encodeLog l = .ok (.obj fs) →
      (l.browser = none → lookupField fs "browser" = none) ∧
      (l.pages = [] → lookupField fs "pages" = none) ∧
      (l.comment = "" → lookupField fs "comment" = none)) ∧
    (∀ (e : Entry) (fs : Fields), encodeEntry e = .ok (.obj fs) →
      (e.pageref = "" → lookupField fs "pageref" = none) ∧
      (e.serverIPAddress = "" → lookupField fs "serverIPAddress" = none) ∧
      (e.connection = "" → lookupField fs "connection" = none) ∧
      (e.comment = "" → lookupField fs "comment" = none)) ∧
    (∀ (p : Page) (fs : Fields), encodePage p = .ok (.obj fs) →
      p.comment = "" → lookupField fs "comment" = none) ∧
    (∀ (a : HAR) (j : JSON), encodeHAR a = .ok j → j.noNull = true) := by
  refine ⟨?_, ?_, ?_, ?_, ?_, ?_, ?_, ?_, ?_, ?_, ?_, ?_, ?_, ?_, ?_, ?_, ?_⟩
  · intro c h; simp [encodeCreatorFields, h, strOpt]
  · intro b h; simp [encodeBrowserFields, h, strOpt]
  · intro p h; simp [encodeNameValuePairFields, h, strOpt]
  · intro c
    refine ⟨?_, ?_, ?_, ?_⟩ <;> intro h <;> simp [encodeCookieFields, h, strOpt]
  · intro p
    refine ⟨?_, ?_, ?_, ?_⟩ <;> intro h <;> simp [encodeParamFields, h, strOpt]
  · intro d h; simp [encodePostDataFields, h, strOpt]
  · intro c
    refine ⟨?_, ?_, ?_, ?_, ?_⟩ <;> intro h <;>
      simp [encodeContentFields, h, strOpt, opt3IntJson]
  · intro d
    refine ⟨?_, ?_⟩ <;> intro h <;> simp [encodeCacheDataFields, h, strOpt]
  · intro c
    refine ⟨?_, ?_, ?_⟩ <;> intro h <;> simp [encodeCacheFields, h, strOpt]
  · intro t
    refine ⟨?_, ?_, ?_, ?_, ?_, ?_, ?_, ?_, ?_⟩ <;> intro h <;>
      simp [encodeTimingsFields, h, strOpt, opt3NumJson]
  · intro pt
    refine ⟨?_, ?_, ?_, ?_, ?_⟩ <;> intro h <;>
      simp [encodePageTimingsFields, h, strOpt, opt3NumJson]
  · intro r
    refine ⟨?_, ?_⟩ <;> intro h <;> simp [encodeRequestFields, h, strOpt]
  · intro r cj h; simp [encodeResponseFields, h, strOpt]
  · intro l fs he
    cases hcr : l.creator with
    | none => rw [encodeLog, hcr] at he; exact Except.noConfusion he
    | some cr =>
    cases hp : mapEE encodePage l.pages with
    | error er =>
      rw [encodeLog, hcr] at he
      simp only [required, ebind_ok, hp, ebind_error] at he
      exact Except.noConfusion he
    | ok pagesJ =>
    cases hent : mapEE encodeEntry l.entries with
    | error er =>
      rw [encodeLog, hcr] at he
      simp only [required, ebind_ok, hp, hent, ebind_error] at he
      exact Except.noConfusion he
    | ok entriesJ =>
      rw [encodeLog, hcr] at he
      simp only [required, ebind_ok, hp, hent, Except.ok.injEq, JSON.obj.injEq] at he
      subst he
      refine ⟨?_, ?_, ?_⟩ <;> intro h <;> simp [h, strOpt]
  · intro e fs he
    cases hreq : e.request with
    | none => rw [encodeEntry, hreq] at he; exact Except.noConfusion he
    | some req =>
    cases hrsp : e.response with
    | none =>
      rw [encodeEntry, hreq, hrsp] at he
      exact Except.noConfusion he
    | some rsp =>
    cases henc : encodeResponse rsp with
    | error er =>
      rw [encodeEntry, hreq, hrsp] at he
      simp only [required, ebind_ok, henc, ebind_error] at he
      exact Except.noConfusion he
    | ok rspJ =>
    cases hca : e.cache with
    | none =>
      rw [encodeEntry, hreq, hrsp] at he
      simp only [required, ebind_ok, henc, ebind_error, hca] at he
      exact Except.noConfusion he
    | some ca =>
    cases hti : e.timings with
    | none =>
      rw [encodeEntry, hreq, hrsp] at he
      simp only [required, ebind_ok, henc, ebind_error, hca, hti] at he
      exact Except.noConfusion he
    | some t =>
      rw [encodeEntry, hreq, hrsp] at he
      simp only [required, ebind_ok, henc, hca, hti, Except.ok.injEq, JSON.obj.injEq] at he
      subst he
      refine ⟨?_, ?_, ?_, ?_⟩ <;> intro h <;> simp [h, strOpt]
  · intro p fs he h
    cases hpt : p.pageTimings with
    | none => rw [encodePage, hpt] at he; exact Except.noConfusion he
    | some pt =>
      rw [encodePage, hpt] at he
      simp only [required, ebind_ok, Except.ok.injEq, JSON.obj.injEq] at he
      subst he
      simp [h, strOpt]
  · exact fun a j h => noNull_encodeHAR a j h

theorem omission_C2_witness :
    lookupField (encodeTimingsFields t2sample) "blocked" = none ∧
    lookupField (encodeTimingsFields t2sample) "dns" = some (.num (-1)) ∧
    lookupField (encodeTimingsFields t2sample) "comment" = none ∧
    lookupField (encodePageTimingsFields pt2sample) "onContentLoad" = some (.num (-1)) ∧
    lookupField (encodePageTimingsFields pt2sample) "onLoad" = none ∧
    lookupField (encodeContentFields ⟨5, .notApplicable, "m", "", "", ""⟩) "compression"
      = some (.num (-1)) ∧
    lookupField (encodeCookieFields ⟨"n", "v", "", "", "", false, false, ""⟩) "path"
      = none ∧
    JSON.noNull ((encodeHAR c1sample).toOption.getD .null) = true := by
  obtain ⟨g1, g2, g3, g4, g5, g6, g7, g8, g9, g10, g11, g12, g13, g14, g15, g16, g17⟩ :=
    omission_C2
  exact ⟨(g10 t2sample).1 rfl, (g10 t2sample).2.2.2.1 rfl,
    (g10 t2sample).2.2.2.2.2.2.2.2 rfl,
    (g11 pt2sample).2.1 rfl, (g11 pt2sample).2.2.1 rfl,
    (g7 ⟨5, .notApplicable, "m", "", "", ""⟩).2.1 rfl,
    (g4 ⟨"n", "v", "", "", "", false, false, ""⟩).1 rfl,
    g17 c1sample ((encodeHAR c1sample).toOption.getD .null) (by rfl)⟩

/-- C3: Decode of a document whose log object lacks the creator key fails
with MalformedInput, while a successful Decode of a document whose log
object lacks the pages key yields an archive with an empty page sequence. -/
theorem requiredFields_C3 (fs : Fields) :
    (lookupField fs "creator" = none →
      decode (.obj [("log", .obj fs)]) = .error .malformedInput) ∧
    (∀ a, lookupField fs "pages" = none → decode (.obj [("log", .obj fs)]) = .ok a →
      ∃ l, a.log = some l ∧ l.pages = []) := by
  constructor
  · intro h
    simp [decode, decodeLog, asObj, decodeLogFields, requireKey, h]
  · intro a hp ha
    simp only [decode, lookupField_cons, lookupField_nil, if_true] at ha
    simp only [decodeLog, asObj, ebind_ok] at ha
    rw [ebind_eq_ok] at ha
    obtain ⟨l, hl, hal⟩ := ha
    injection hal with hal
    simp only [decodeLogFields, ebind_eq_ok] at hl
    obtain ⟨cj, hcj, ej, hej, v, hv, cr, hcr, br, hbr, pg, hpg, en, hen, cm, hcm, hfin⟩ := hl
    rw [hp] at hpg
    simp only [decodeArr] at hpg
    injection hpg with hpg
    injection hfin with hfin
    refine ⟨l, by rw [← hal], ?_⟩
    rw [← hfin, ← hpg]

theorem requiredFields_C3_witness :
    decode (.obj [("log", .obj [("entries", .arr [])])]) = .error .malformedInput ∧
    ∃ l, (HAR.mk (some ⟨"1.1", some ⟨"x", "1", ""⟩, none, [], [], ""⟩)).log = some l ∧
      l.pages = [] := by
  refine ⟨(requiredFields_C3 [("entries", .arr [])]).1 rfl, ?_⟩
  exact (requiredFields_C3
      [("creator", .obj [("name", .str "x"), ("version", .str "1")]), ("entries", .arr [])]).2
    (HAR.mk (some ⟨"1.1", some ⟨"x", "1", ""⟩, none, [], [], ""⟩)) rfl (by rfl)

theorem decodeEntryFields_badTimestamp (efs : Fields) (e : Entry) (s : String)
    (hts : lookupField efs "startedDateTime" = some (.str s))
    (hbad : isValidISO8601 s = false)
    (he : decodeEntryFields efs = .ok e) :
    e.startedDateTime = .invalid s := by
  simp only [decodeEntryFields, ebind_eq_ok] at he
  obtain ⟨rq, hrq, rs, hrs, cj, hcj, tj, htj, pr, hpr, st, hst, tm, htm, req, hreq,
    rsp, hrsp, ca, hca, ti, hti, sip, hsip, con, hcon, cm, hcm, hfin⟩ := he
  rw [hts] at hst
  simp only [decodeTimestamp, hbad, Bool.false_eq_true, if_false, Except.ok.injEq] at hst
  injection hfin with hfin
  rw [← hfin, ← hst]

/-- C4: Decode of a Log in which one Entry (the i-th) carries a malformed
startedDateTime string does not fail: provided every entry object is
otherwise decodable, the whole Log decodes, all entries are present, and
the offending entry is flagged `Timestamp.invalid` with the raw string
retained. -/
theorem timestampPartial_C4 (creatorJ : JSON) (c : Creator) (entriesJ : List JSON)
    (es : List Entry) (i : ℕ) (efs : Fields) (s : String)
    (hc : decodeCreator creatorJ = .ok c)
    (hes : mapE decodeEntry entriesJ = .ok es)
    (hei : entriesJ[i]? = some (.obj efs))
    (hts : lookupField efs "startedDateTime" = some (.str s))
    (hbad : isValidISO8601 s = false) :
    ∃ l, decodeLog (.obj [("creator", creatorJ), ("entries", .arr entriesJ)]) = .ok l ∧
      l.entries = es ∧ es.length = entriesJ.length ∧
      ∃ e, es[i]? = some e ∧ e.startedDateTime = .invalid s := by
  refine ⟨⟨"1.1", some c, none, [], es, ""⟩, ?_, rfl, mapE_length _ _ _ hes, ?_⟩
  · simp [decodeLog, asObj, decodeLogFields, requireKey, hc, decodeArr, decodeArrReq, hes,
      decodeOptObj]
  · obtain ⟨e, hie, hde⟩ := mapE_getElem decodeEntry entriesJ es hes i _ hei
    refine ⟨e, hie, ?_⟩
    have hef : decodeEntryFields efs = .ok e := by simpa [decodeEntry, asObj] using hde
    exact decodeEntryFields_badTimestamp efs e s hts hbad hef

theorem timestampPartial_C4_witness :
    ∃ l, decodeLog (.obj [("creator", .obj [("name", .str "x"), ("version", .str "1")]),
        ("entries", .arr [.obj c4entryFields])]) = .ok l ∧
      l.entries = c4es ∧ c4es.length = [JSON.obj c4entryFields].length ∧
      ∃ e, c4es[0]? = some e ∧ e.startedDateTime = .invalid "bogus" :=
  timestampPartial_C4 (.obj [("name", .str "x"), ("version", .str "1")]) ⟨"x", "1", ""⟩
    [.obj c4entryFields] c4es 0 c4entryFields "bogus"
    (by rfl) (by rfl) (by rfl) (by rfl) (by rfl)

/-! ## Forward compatibility: unrecognized extra keys are ignored. -/

theorem requireKey_extra (fs : Fields) (k : String) (v : JSON) (key : String)
    (h : key ≠ k) : requireKey (fs ++ [(k, v)]) key = requireKey fs key := by
  simp only [requireKey, lookupField_append_extra fs k v key h]

theorem decode_extra (fs : Fields) (k : String) (v : JSON) (h : k ≠ "log") :
    decode (.obj (fs ++ [(k, v)])) = decode (.obj fs) := by
  simp only [decode, lookupField_append_extra fs k v "log" (Ne.symm h)]

theorem decodeCreatorFields_extra (fs : Fields) (k : String) (v : JSON)
    (h : k ∉ (["name", "version", "comment"] : List String)) :
    decodeCreatorFields (fs ++ [(k, v)]) = decodeCreatorFields fs := by
  simp only [List.mem_cons, List.mem_nil_iff, or_false, not_or] at h
  obtain ⟨h1, h2, h3⟩ := h
  simp only [decodeCreatorFields,
    lookupField_append_extra fs k v "name" (Ne.symm h1),
    lookupField_append_extra fs k v "version" (Ne.symm h2),
    lookupField_append_extra fs k v "comment" (Ne.symm h3)]

theorem decodeBrowserFields_extra (fs : Fields) (k : String) (v : JSON)
    (h : k ∉ (["name", "version", "comment"] : List String)) :
    decodeBrowserFields (fs ++ [(k, v)]) = decodeBrowserFields fs := by
  simp only [List.mem_cons, List.mem_nil_iff, or_false, not_or] at h
  obtain ⟨h1, h2, h3⟩ := h
  simp only [decodeBrowserFields,
    lookupField_append_extra fs k v "name" (Ne.symm h1),
    lookupField_append_extra fs k v "version" (Ne.symm h2),
    lookupField_append_extra fs k v "comment" (Ne.symm h3)]

theorem decodeNameValuePairFields_extra (fs : Fields) (k : String) (v : JSON)
    (h : k ∉ (["name", "value", "comment"] : List String)) :
    decodeNameValuePairFields (fs ++ [(k, v)]) = decodeNameValuePairFields fs := by
  simp only [List.mem_cons, List.mem_nil_iff, or_false, not_or] at h
  obtain ⟨h1, h2, h3⟩ := h
  simp only [decodeNameValuePairFields,
    lookupField_append_extra fs k v "name" (Ne.symm h1),
    lookupField_append_extra fs k v "value" (Ne.symm h2),
    lookupField_append_extra fs k v "comment" (Ne.symm h3)]

theorem decodeCookieFields_extra (fs : Fields) (k : String) (v : JSON)
    (h : k ∉ (["name", "value", "path", "domain", "expires", "httpOnly", "secure",
      "comment"] : List String)) :
    decodeCookieFields (fs ++ [(k, v)]) = decodeCookieFields fs := by
  simp only [List.mem_cons, List.mem_nil_iff, or_false, not_or] at h
  obtain ⟨h1, h2, h3, h4, h5, h6, h7, h8⟩ := h
  simp only [decodeCookieFields,
    lookupField_append_extra fs k v "name" (Ne.symm h1),
    lookupField_append_extra fs k v "value" (Ne.symm h2),
    lookupField_append_extra fs k v "path" (Ne.symm h3),
    lookupField_append_extra fs k v "domain" (Ne.symm h4),
    lookupField_append_extra fs k v "expires" (Ne.symm h5),
    lookupField_append_extra fs k v "httpOnly" (Ne.symm h6),
    lookupField_append_extra fs k v "secure" (Ne.symm h7),
    lookupField_append_extra fs k v "comment" (Ne.symm h8)]

theorem decodeParamFields_extra (fs : Fields) (k : String) (v : JSON)
    (h : k ∉ (["name", "value", "fileName", "contentType", "comment"] : List String)) :
    decodeParamFields (fs ++ [(k, v)]) = decodeParamFields fs := by
  simp only [List.mem_cons, List.mem_nil_iff, or_false, not_or] at h
  obtain ⟨h1, h2, h3, h4, h5⟩ := h
  simp only [decodeParamFields,
    lookupField_append_extra fs k v "name" (Ne.symm h1),
    lookupField_append_extra fs k v "value" (Ne.symm h2),
    lookupField_append_extra fs k v "fileName" (Ne.symm h3),
    lookupField_append_extra fs k v "contentType" (Ne.symm h4),
    lookupField_append_extra fs k v "comment" (Ne.symm h5)]

theorem decodePostDataFields_extra (fs : Fields) (k : String) (v : JSON)
    (h : k ∉ (["mimeType", "params", "text", "comment"] : List String)) :
    decodePostDataFields (fs ++ [(k, v)]) = decodePostDataFields fs := by
  simp only [List.mem_cons, List.mem_nil_iff, or_false, not_or] at h
  obtain ⟨h1, h2, h3, h4⟩ := h
  simp only [decodePostDataFields,
    lookupField_append_extra fs k v "mimeType" (Ne.symm h1),
    lookupField_append_extra fs k v "params" (Ne.symm h2),
    lookupField_append_extra fs k v "text" (Ne.symm h3),
    lookupField_append_extra fs k v "comment" (Ne.symm h4)]

theorem decodeContentFields_extra (fs : Fields) (k : String) (v : JSON)
    (h : k ∉ (["size", "compression", "mimeType", "text", "encoding",
      "comment"] : List String)) :
    decodeContentFields (fs ++ [(k, v)]) = decodeContentFields fs := by
  simp only [List.mem_cons, List.mem_nil_iff, or_false, not_or] at h
  obtain ⟨h1, h2, h3, h4, h5, h6⟩ := h
  simp only [decodeContentFields,
    lookupField_append_extra fs k v "size" (Ne.symm h1),
    lookupField_append_extra fs k v "compression" (Ne.symm h2),
    lookupField_append_extra fs k v "mimeType" (Ne.symm h3),
    lookupField_append_extra fs k v "text" (Ne.symm h4),
    lookupField_append_extra fs k v "encoding" (Ne.symm h5),
    lookupField_append_extra fs k v "comment" (Ne.symm h6)]

theorem decodeCacheDataFields_extra (fs : Fields) (k : String) (v : JSON)
    (h : k ∉ (["expires", "lastAccess", "eTag", "hitCount", "comment"] : List String)) :
    decodeCacheDataFields (fs ++ [(k, v)]) = decodeCacheDataFields fs := by
  simp only [List.mem_cons, List.mem_nil_iff, or_false, not_or] at h
  obtain ⟨h1, h2, h3, h4, h5⟩ := h
  simp only [decodeCacheDataFields,
    lookupField_append_extra fs k v "expires" (Ne.symm h1),
    lookupField_append_extra fs k v "lastAccess" (Ne.symm h2),
    lookupField_append_extra fs k v "eTag" (Ne.symm h3),
    lookupField_append_extra fs k v "hitCount" (Ne.symm h4),
    lookupField_append_extra fs k v "comment" (Ne.symm h5)]

theorem decodeCacheFields_extra (fs : Fields) (k : String) (v : JSON)
    (h : k ∉ (["beforeRequest", "afterRequest", "comment"] : List String)) :
    decodeCacheFields (fs ++ [(k, v)]) = decodeCacheFields fs := by
  simp only [List.mem_cons, List.mem_nil_iff, or_false, not_or] at h
  obtain ⟨h1, h2, h3⟩ := h
  simp only [decodeCacheFields,
    lookupField_append_extra fs k v "beforeRequest" (Ne.symm h1),
    lookupField_append_extra fs k v "afterRequest" (Ne.symm h2),
    lookupField_append_extra fs k v "comment" (Ne.symm h3)]

theorem decodeTimingsFields_extra (fs : Fields) (k : String) (v : JSON)
    (h : k ∉ (["blocked", "dns", "connect", "send", "wait", "receive", "ssl",
      "comment"] : List String)) :
    decodeTimingsFields (fs ++ [(k, v)]) = decodeTimingsFields fs := by
  simp only [List.mem_cons, List.mem_nil_iff, or_false, not_or] at h
  obtain ⟨h1, h2, h3, h4, h5, h6, h7, h8⟩ := h
  simp only [decodeTimingsFields,
    lookupField_append_extra fs k v "blocked" (Ne.symm h1),
    lookupField_append_extra fs k v "dns" (Ne.symm h2),
    lookupField_append_extra fs k v "connect" (Ne.symm h3),
    lookupField_append_extra fs k v "send" (Ne.symm h4),
    lookupField_append_extra fs k v "wait" (Ne.symm h5),
    lookupField_append_extra fs k v "receive" (Ne.symm h6),
    lookupField_append_extra fs k v "ssl" (Ne.symm h7),
    lookupField_append_extra fs k v "comment" (Ne.symm h8)]

theorem decodePageTimingsFields_extra (fs : Fields) (k : String) (v : JSON)
    (h : k ∉ (["onContentLoad", "onLoad", "comment"] : List String)) :
    decodePageTimingsFields (fs ++ [(k, v)]) = decodePageTimingsFields fs := by
  simp only [List.mem_cons, List.mem_nil_iff, or_false, not_or] at h
  obtain ⟨h1, h2, h3⟩ := h
  simp only [decodePageTimingsFields,
    lookupField_append_extra fs k v "onContentLoad" (Ne.symm h1),
    lookupField_append_extra fs k v "onLoad" (Ne.symm h2),
    lookupField_append_extra fs k v "comment" (Ne.symm h3)]

theorem decodeRequestFields_extra (fs : Fields) (k : String) (v : JSON)
    (h : k ∉ (["method", "url", "httpVersion", "cookies", "headers", "queryString",
      "postData", "headersSize", "bodySize", "comment"] : List String)) :
    decodeRequestFields (fs ++ [(k, v)]) = decodeRequestFields fs := by
  simp only [List.mem_cons, List.mem_nil_iff, or_false, not_or] at h
  obtain ⟨h1, h2, h3, h4, h5, h6, h7, h8, h9, h10⟩ := h
  simp only [decodeRequestFields,
    lookupField_append_extra fs k v "method" (Ne.symm h1),
    lookupField_append_extra fs k v "url" (Ne.symm h2),
    lookupField_append_extra fs k v "httpVersion" (Ne.symm h3),
    lookupField_append_extra fs k v "cookies" (Ne.symm h4),
    lookupField_append_extra fs k v "headers" (Ne.symm h5),
    lookupField_append_extra fs k v "queryString" (Ne.symm h6),
    lookupField_append_extra fs k v "postData" (Ne.symm h7),
    lookupField_append_extra fs k v "headersSize" (Ne.symm h8),
    lookupField_append_extra fs k v "bodySize" (Ne.symm h9),
    lookupField_append_extra fs k v "comment" (Ne.symm h10)]

theorem decodeResponseFields_extra (fs : Fields) (k : String) (v : JSON)
    (h : k ∉ (["status", "statusText", "httpVersion", "cookies", "headers", "content",
      "redirectURL", "headersSize", "bodySize", "comment"] : List String)) :
    decodeResponseFields (fs ++ [(k, v)]) = decodeResponseFields fs := by
  simp only [List.mem_cons, List.mem_nil_iff, or_false, not_or] at h
  obtain ⟨h1, h2, h3, h4, h5, h6, h7, h8, h9, h10⟩ := h
  simp only [decodeResponseFields,
    requireKey_extra fs k v "content" (Ne.symm h6),
    lookupField_append_extra fs k v "status" (Ne.symm h1),
    lookupField_append_extra fs k v "statusText" (Ne.symm h2),
    lookupField_append_extra fs k v "httpVersion" (Ne.symm h3),
    lookupField_append_extra fs k v "cookies" (Ne.symm h4),
    lookupField_append_extra fs k v "headers" (Ne.symm h5),
    lookupField_append_extra fs k v "redirectURL" (Ne.symm h7),
    lookupField_append_extra fs k v "headersSize" (Ne.symm h8),
    lookupField_append_extra fs k v "bodySize" (Ne.symm h9),
    lookupField_append_extra fs k v "comment" (Ne.symm h10)]

theorem decodeEntryFields_extra (fs : Fields) (k : String) (v : JSON)
    (h : k ∉ (["pageref", "startedDateTime", "time", "request", "response", "cache",
      "timings", "serverIPAddress", "connection", "comment"] : List String)) :
    decodeEntryFields (fs ++ [(k, v)]) = decodeEntryFields fs := by
  simp only [List.mem_cons, List.mem_nil_iff, or_false, not_or] at h
  obtain ⟨h1, h2, h3, h4, h5, h6, h7, h8, h9, h10⟩ := h
  simp only [decodeEntryFields,
    requireKey_extra fs k v "request" (Ne.symm h4),
    requireKey_extra fs k v "response" (Ne.symm h5),
    requireKey_extra fs k v "cache" (Ne.symm h6),
    requireKey_extra fs k v "timings" (Ne.symm h7),
    lookupField_append_extra fs k v "pageref" (Ne.symm h1),
    lookupField_append_extra fs k v "startedDateTime" (Ne.symm h2),
    lookupField_append_extra fs k v "time" (Ne.symm h3),
    lookupField_append_extra fs k v "serverIPAddress" (Ne.symm h8),
    lookupField_append_extra fs k v "connection" (Ne.symm h9),
    lookupField_append_extra fs k v "comment" (Ne.symm h10)]

theorem decodePageFields_extra (fs : Fields) (k : String) (v : JSON)
    (h : k ∉ (["startedDateTime", "id", "title", "pageTimings",
      "comment"] : List String)) :
    decodePageFields (fs ++ [(k, v)]) = decodePageFields fs := by
  simp only [List.mem_cons, List.mem_nil_iff, or_false, not_or] at h
  obtain ⟨h1, h2, h3, h4, h5⟩ := h
  simp only [decodePageFields,
    requireKey_extra fs k v "pageTimings" (Ne.symm h4),
    lookupField_append_extra fs k v "startedDateTime" (Ne.symm h1),
    lookupField_append_extra fs k v "id" (Ne.symm h2),
    lookupField_append_extra fs k v "title" (Ne.symm h3),
    lookupField_append_extra fs k v "comment" (Ne.symm h5)]

theorem decodeLogFields_extra (fs : Fields) (k : String) (v : JSON)
    (h : k ∉ (["version", "creator", "browser", "pages", "entries",
      "comment"] : List String)) :
    decodeLogFields (fs ++ [(k, v)]) = decodeLogFields fs := by
  simp only [List.mem_cons, List.mem_nil_iff, or_false, not_or] at h
  obtain ⟨h1, h2, h3, h4, h5, h6⟩ := h
  simp only [decodeLogFields,
    requireKey_extra fs k v "creator" (Ne.symm h2),
    requireKey_extra fs k v "entries" (Ne.symm h5),
    lookupField_append_extra fs k v "version" (Ne.symm h1),
    lookupField_append_extra fs k v "browser" (Ne.symm h3),
    lookupField_append_extra fs k v "pages" (Ne.symm h4),
    lookupField_append_extra fs k v "comment" (Ne.symm h6)]

/-- C5: an unrecognized extra key appended at any object level leaves the
decode result of that object unchanged: decoding still succeeds whenever it
succeeded without the key, and no data from the extra key reaches the
decoded record. -/
theorem forwardCompat_C5 (fs : Fields) (k : String) (v : JSON) :
    (k ≠ "log" → decode (.obj (fs ++ [(k, v)])) = decode (.obj fs)) ∧
    (k ∉ (["version", "creator", "browser", "pages", "entries",
        "comment"] : List String) →
      decodeLogFields (fs ++ [(k, v)]) = decodeLogFields fs) ∧
    (k ∉ (["pageref", "startedDateTime", "time", "request", "response", "cache",
        "timings", "serverIPAddress", "connection", "comment"] : List String) →
      decodeEntryFields (fs ++ [(k, v)]) = decodeEntryFields fs) ∧
    (k ∉ (["startedDateTime", "id", "title", "pageTimings", "comment"] : List String) →
      decodePageFields (fs ++ [(k, v)]) = decodePageFields fs) ∧
    (k ∉ (["method", "url", "httpVersion", "cookies", "headers", "queryString",
        "postData", "headersSize", "bodySize", "comment"] : List String) →
      decodeRequestFields (fs ++ [(k, v)]) = decodeRequestFields fs) ∧
    (k ∉ (["status", "statusText", "httpVersion", "cookies", "headers", "content",
        "redirectURL", "headersSize", "bodySize", "comment"] : List String) →
      decodeResponseFields (fs ++ [(k, v)]) = decodeResponseFields fs) ∧
    (k ∉ (["name", "version", "comment"] : List String) →
      decodeCreatorFields (fs ++ [(k, v)]) = decodeCreatorFields fs) ∧
    (k ∉ (["name", "version", "comment"] : List String) →
      decodeBrowserFields (fs ++ [(k, v)]) = decodeBrowserFields fs) ∧
    (k ∉ (["name", "value", "comment"] : List String) →
      decodeNameValuePairFields (fs ++ [(k, v)]) = decodeNameValuePairFields fs) ∧
    (k ∉ (["name", "value", "path", "domain", "expires", "httpOnly", "secure",
        "comment"] : List String) →
      decodeCookieFields (fs ++ [(k, v)]) = decodeCookieFields fs) ∧
    (k ∉ (["name", "value", "fileName", "contentType", "comment"] : List String) →
      decodeParamFields (fs ++ [(k, v)]) = decodeParamFields fs) ∧
    (k ∉ (["mimeType", "params", "text", "comment"] : List String) →
      decodePostDataFields (fs ++ [(k, v)]) = decodePostDataFields fs) ∧
    (k ∉ (["size", "compression", "mimeType", "text", "encoding",
        "comment"] : List String) →
      decodeContentFields (fs ++ [(k, v)]) = decodeContentFields fs) ∧
    (k ∉ (["expires", "lastAccess", "eTag", "hitCount", "comment"] : List String) →
      decodeCacheDataFields (fs ++ [(k, v)]) = decodeCacheDataFields fs) ∧
    (k ∉ (["beforeRequest", "afterRequest", "comment"] : List String) →
      decodeCacheFields (fs ++ [(k, v)]) = decodeCacheFields fs) ∧
    (k ∉ (["blocked", "dns", "connect", "send", "wait", "receive", "ssl",
        "comment"] : List String) →
      decodeTimingsFields (fs ++ [(k, v)]) = decodeTimingsFields fs) ∧
    (k ∉ (["onContentLoad", "onLoad", "comment"] : List String) →
      decodePageTimingsFields (fs ++ [(k, v)]) = decodePageTimingsFields fs) :=
  ⟨decode_extra fs k v, decodeLogFields_extra fs k v, decodeEntryFields_extra fs k v,
    decodePageFields_extra fs k v, decodeRequestFields_extra fs k v,
    decodeResponseFields_extra fs k v, decodeCreatorFields_extra fs k v,
    decodeBrowserFields_extra fs k v, decodeNameValuePairFields_extra fs k v,
    decodeCookieFields_extra fs k v, decodeParamFields_extra fs k v,
    decodePostDataFields_extra fs k v, decodeContentFields_extra fs k v,
    decodeCacheDataFields_extra fs k v, decodeCacheFields_extra fs k v,
    decodeTimingsFields_extra fs k v, decodePageTimingsFields_extra fs k v⟩

theorem forwardCompat_C5_witness :
    decode (.obj ([("log", .obj [("entries", .arr [])])] ++ [("futureKey", .null)])) =
      decode (.obj [("log", .obj [("entries", .arr [])])]) ∧
    decodeTimingsFields ([("send", .num 1)] ++ [("futureKey", .null)]) =
      decodeTimingsFields [("send", .num 1)] := by
  refine ⟨(forwardCompat_C5 [("log", .obj [("entries", .arr [])])] "futureKey" .null).1
    (by decide), ?_⟩
  obtain ⟨g1, g2, g3, g4, g5, g6, g7, g8, g9, g10, g11, g12, g13, g14, g15, g16, g17⟩ :=
    forwardCompat_C5 [("send", .num 1)] "futureKey" .null
  exact g16 (by decide)

/-! ## Sentinel decoding. -/

theorem decodeTimingsFields_proj (fs : Fields) (t : Timings)
    (h : decodeTimingsFields fs = .ok t) :
    decodeOpt3Num (lookupField fs "blocked") = .ok t.blocked ∧
    decodeOpt3Num (lookupField fs "dns") = .ok t.dns ∧
    decodeOpt3Num (lookupField fs "connect") = .ok t.connect ∧
    decodeOpt3Num (lookupField fs "ssl") = .ok t.ssl := by
  simp only [decodeTimingsFields, ebind_eq_ok] at h
  obtain ⟨b, hb, d, hd, c, hc, sn, hsn, w, hw, rc, hrc, sl, hsl, cm, hcm, hfin⟩ := h
  injection hfin with hfin
  subst hfin
  exact ⟨hb, hd, hc, hsl⟩

theorem decodePageTimingsFields_proj (fs : Fields) (pt : PageTimings)
    (h : decodePageTimingsFields fs = .ok pt) :
    decodeOpt3Num (lookupField fs "onContentLoad") = .ok pt.onContentLoad ∧
    decodeOpt3Num (lookupField fs "onLoad") = .ok pt.onLoad := by
  simp only [decodePageTimingsFields, ebind_eq_ok] at h
  obtain ⟨cl, hcl, ol, hol, cm, hcm, hfin⟩ := h
  injection hfin with hfin
  subst hfin
  exact ⟨hcl, hol⟩

theorem decodeOpt3Num_lookup_cases (fs : Fields) (key : String) (o : Opt3 ℚ)
    (h : decodeOpt3Num (lookupField fs key) = .ok o) :
    (lookupField fs key = some (.num (-1)) → o = .notApplicable) ∧
    (lookupField fs key = none → o = .unmeasured) := by
  constructor
  · intro hl
    rw [hl] at h
    simp only [decodeOpt3Num, if_pos rfl, Except.ok.injEq] at h
    exact h.symm
  · intro hl
    rw [hl] at h
    simp only [decodeOpt3Num, Except.ok.injEq] at h
    exact h.symm

/-- C7: for every sentinel-carrying numeric field, Decode maps an input
value of −1 to the `Opt3.notApplicable` marker, which is distinguishable
both from the absent state (`Opt3.unmeasured`, produced only by a missing
key) and from every ordinary numeric value (`Opt3.value q`). -/
theorem sentinelDecode_C7 :
    (∀ (fs : Fields) (t : Timings), decodeTimingsFields fs = .ok t →
      ((lookupField fs "blocked" = some (.num (-1)) → t.blocked = .notApplicable) ∧
       (lookupField fs "blocked" = none → t.blocked = .unmeasured) ∧
       (lookupField fs "dns" = some (.num (-1)) → t.dns = .notApplicable) ∧
       (lookupField fs "dns" = none → t.dns = .unmeasured) ∧
       (lookupField fs "connect" = some (.num (-1)) → t.connect = .notApplicable) ∧
       (lookupField fs "connect" = none → t.connect = .unmeasured) ∧
       (lookupField fs "ssl" = some (.num (-1)) → t.ssl = .notApplicable) ∧
       (lookupField fs "ssl" = none → t.ssl = .unmeasured))) ∧
    (∀ (fs : Fields) (pt : PageTimings), decodePageTimingsFields fs = .ok pt →
      ((lookupField fs "onContentLoad" = some (.num (-1)) →
          pt.onContentLoad = .notApplicable) ∧
       (lookupField fs "onContentLoad" = none → pt.onContentLoad = .unmeasured) ∧
       (lookupField fs "onLoad" = some (.num (-1)) → pt.onLoad = .notApplicable) ∧
       (lookupField fs "onLoad" = none → pt.onLoad = .unmeasured))) ∧
    (∀ q : ℚ, (Opt3.notApplicable : Opt3 ℚ) ≠ .unmeasured ∧
      (Opt3.notApplicable : Opt3 ℚ) ≠ .value q) := by
  refine ⟨?_, ?_, ?_⟩
  · intro fs t h
    obtain ⟨hb, hd, hc, hs⟩ := decodeTimingsFields_proj fs t h
    obtain ⟨hb1, hb2⟩ := decodeOpt3Num_lookup_cases fs "blocked" t.blocked hb
    obtain ⟨hd1, hd2⟩ := decodeOpt3Num_lookup_cases fs "dns" t.dns hd
    obtain ⟨hc1, hc2⟩ := decodeOpt3Num_lookup_cases fs "connect" t.connect hc
    obtain ⟨hs1, hs2⟩ := decodeOpt3Num_lookup_cases fs "ssl" t.ssl hs
    exact ⟨hb1, hb2, hd1, hd2, hc1, hc2, hs1, hs2⟩
  · intro fs pt h
    obtain ⟨hcl, hol⟩ := decodePageTimingsFields_proj fs pt h
    obtain ⟨h1, h2⟩ := decodeOpt3Num_lookup_cases fs "onContentLoad" pt.onContentLoad hcl
    obtain ⟨h3, h4⟩ := decodeOpt3Num_lookup_cases fs "onLoad" pt.onLoad hol
    exact ⟨h1, h2, h3, h4⟩
  · intro q
    exact ⟨by simp, by simp⟩

theorem sentinelDecode_C7_witness :
    ∃ t : Timings,
      decodeTimingsFields [("blocked", .num (-1)), ("send", .num 1), ("wait", .num 2),
        ("receive", .num 3)] = .ok t ∧
      t.blocked = .notApplicable ∧ t.dns = .unmeasured := by
  refine ⟨⟨.notApplicable, .unmeasured, .unmeasured, 1, 2, 3, .unmeasured, ""⟩, ?_, ?_, ?_⟩
  · simp [decodeTimingsFields, decodeOpt3Num]
  · exact ((sentinelDecode_C7.1 [("blocked", .num (-1)), ("send", .num 1),
      ("wait", .num 2), ("receive", .num 3)]
      ⟨.notApplicable, .unmeasured, .unmeasured, 1, 2, 3, .unmeasured, ""⟩
      (by simp [decodeTimingsFields, decodeOpt3Num])).1) (by simp)
  · exact ((sentinelDecode_C7.1 [("blocked", .num (-1)), ("send", .num 1),
      ("wait", .num 2), ("receive", .num 3)]
      ⟨.notApplicable, .unmeasured, .unmeasured, 1, 2, 3, .unmeasured, ""⟩
      (by simp [decodeTimingsFields, decodeOpt3Num])).2.2.2.1) (by simp)

/-! ## Encoder failure characterization. -/

theorem encodeResponse_err_iff (r : Response) :
    encodeResponse r = .error .unencodableValue ↔ r.hasUninit = true := by
  cases hc : r.content with
  | none => simp [encodeResponse, required, hc, Response.hasUninit]
  | some c =>
    by_cases h0 : r.status = 0 <;>
      simp [encodeResponse, required, hc, Response.hasUninit, h0]

theorem mapEE_err_iff {α : Type} (g : α → Except EncodeError JSON) (xs : List α) :
    mapEE g xs = .error .unencodableValue ↔
      ∃ x ∈ xs, g x = .error .unencodableValue := by
  induction xs with
  | nil => simp [mapEE]
  | cons x rest ih =>
    cases hx : g x with
    | error e =>
      cases e
      simp [mapEE, hx]
    | ok j =>
      cases hr : mapEE g rest with
      | error e =>
        cases e
        simp [mapEE, hx, hr, List.exists_mem_cons_iff, ← ih]
      | ok js =>
        simp [mapEE, hx, hr, List.exists_mem_cons_iff, ← ih]

theorem encodeEntry_err_iff (e : Entry) :
    encodeEntry e = .error .unencodableValue ↔ e.hasUninit = true := by
  cases hreq : e.request with
  | none => simp [encodeEntry, required, hreq, Entry.hasUninit]
  | some req =>
  cases hrsp : e.response with
  | none => simp [encodeEntry, required, hreq, hrsp, Entry.hasUninit]
  | some rsp =>
  cases henc : encodeResponse rsp with
  | error er =>
    cases er
    simp [encodeEntry, required, hreq, hrsp, henc, Entry.hasUninit,
      (encodeResponse_err_iff rsp).mp henc]
  | ok rj =>
    have hru : rsp.hasUninit = false := by
      cases hu : rsp.hasUninit
      · rfl
      · have hcontra := (encodeResponse_err_iff rsp).mpr hu
        rw [henc] at hcontra
        exact Except.noConfusion hcontra
    cases hca : e.cache with
    | none => simp [encodeEntry, required, hreq, hrsp, henc, hca, Entry.hasUninit, hru]
    | some ca =>
    cases hti : e.timings with
    | none =>
      simp [encodeEntry, required, hreq, hrsp, henc, hca, hti, Entry.hasUninit, hru]
    | some t =>
      simp [encodeEntry, required, hreq, hrsp, henc, hca, hti, Entry.hasUninit, hru]

theorem encodePage_err_iff (p : Page) :
    encodePage p = .error .unencodableValue ↔ p.hasUninit = true := by
  cases hpt : p.pageTimings with
  | none => simp [encodePage, required, hpt, Page.hasUninit]
  | some pt => simp [encodePage, required, hpt, Page.hasUninit]

theorem encodeLog_err_iff (l : Log) :
    encodeLog l = .error .unencodableValue ↔ l.hasUninit = true := by
  have hpages : mapEE encodePage l.pages = .error .unencodableValue ↔
      l.pages.any Page.hasUninit = true := by
    rw [mapEE_err_iff]
    simp [List.any_eq_true, encodePage_err_iff]
  have hentries : mapEE encodeEntry l.entries = .error .unencodableValue ↔
      l.entries.any Entry.hasUninit = true := by
    rw [mapEE_err_iff]
    simp [List.any_eq_true, encodeEntry_err_iff]
  cases hcr : l.creator with
  | none => simp [encodeLog, required, hcr, Log.hasUninit]
  | some cr =>
    cases hp : mapEE encodePage l.pages with
    | error e =>
      cases e
      simp [encodeLog, required, hcr, hp, Log.hasUninit, hpages.mp hp]
    | ok pj =>
      have hpf : l.pages.any Page.hasUninit = false := by
        cases hu : l.pages.any Page.hasUninit
        · rfl
        · have hcontra := hpages.mpr hu
          rw [hp] at hcontra
          exact Except.noConfusion hcontra
      cases he : mapEE encodeEntry l.entries with
      | error e =>
        cases e
        simp [encodeLog, required, hcr, hp, he, Log.hasUninit, hpf, hentries.mp he]
      | ok ej =>
        have hef : l.entries.any Entry.hasUninit = false := by
          cases hu : l.entries.any Entry.hasUninit
          · rfl
          · have hcontra := hentries.mpr hu
            rw [he] at hcontra
            exact Except.noConfusion hcontra
        simp [encodeLog, required, hcr, hp, he, Log.hasUninit, hpf, hef]

theorem encodeHAR_err_iff (a : HAR) :
    encodeHAR a = .error .unencodableValue ↔ a.hasUninit = true := by
  cases hl : a.log with
  | none => simp [encodeHAR, required, hl, HAR.hasUninit]
  | some l =>
    cases he : encodeLog l with
    | error e =>
      cases e
      simp [encodeHAR, required, hl, he, HAR.hasUninit, (encodeLog_err_iff l).mp he]
    | ok lj =>
      have hlf : l.hasUninit = false := by
        cases hu : l.hasUninit
        · rfl
        · have hcontra := (encodeLog_err_iff l).mpr hu
          rw [he] at hcontra
          exact Except.noConfusion hcontra
      simp [encodeHAR, required, hl, he, HAR.hasUninit, hlf]

/-- C8: Encode fails, with UnencodableValue, exactly when some required
field of the archive is in its zero-value/uninitialized state (a missing
log, creator, request, response, cache, timings, content or pageTimings,
or a response whose status is the unset zero) — and it never produces an
output document for such an input. -/
theorem unencodable_C8 (a : HAR) :
    (encodeHAR a = .error .unencodableValue ↔ a.hasUninit = true) ∧
    (∀ j, encodeHAR a = .ok j → a.hasUninit = false) := by
  refine ⟨encodeHAR_err_iff a, ?_⟩
  intro j hj
  cases hu : a.hasUninit
  · rfl
  · have hcontra := (encodeHAR_err_iff a).mpr hu
    rw [hj] at hcontra
    exact Except.noConfusion hcontra

theorem unencodable_C8_witness :
    (encodeHAR ⟨none⟩ = .error .unencodableValue ∧ HAR.hasUninit ⟨none⟩ = true) ∧
    HAR.hasUninit c1sample = false :=
  ⟨⟨(unencodable_C8 ⟨none⟩).1.mpr rfl, rfl⟩,
    (unencodable_C8 c1sample).2 ((encodeHAR c1sample).toOption.getD .null) (by rfl)⟩

/-! ## Byte-size fields and cookie flags are always emitted. -/

/-- C9: for every Request and every Response that encodes at all, the
headersSize and bodySize keys are always emitted with the literal numeric
value of the field — 0, −1 and every other integer appear literally — and
both records round-trip through the decoder unchanged, so an explicit 0 is
never collapsed into absence. -/
theorem sizesEmitted_C9 :
    (∀ r : Request,
      lookupField (encodeRequestFields r) "headersSize"
        = some (.num (r.headersSize : ℚ)) ∧
      lookupField (encodeRequestFields r) "bodySize"
        = some (.num (r.bodySize : ℚ)) ∧
      decodeRequest (encodeRequest r) = .ok r) ∧
    (∀ (r : Response) (j : JSON), r.wf = true → encodeResponse r = .ok j →
      ∃ fs, j = .obj fs ∧
        lookupField fs "headersSize" = some (.num (r.headersSize : ℚ)) ∧
        lookupField fs "bodySize" = some (.num (r.bodySize : ℚ)) ∧
        decodeResponse j = .ok r) := by
  constructor
  · intro r
    refine ⟨?_, ?_, decodeRequest_encode r⟩ <;> simp [encodeRequestFields]
  · intro r j hw he
    have hdec := decodeResponse_encode r j hw he
    cases hc : r.content with
    | none => rw [encodeResponse, hc] at he; exact Except.noConfusion he
    | some c =>
      rw [encodeResponse, hc] at he
      simp only [required, ebind_ok] at he
      by_cases h0 : r.status = 0
      · rw [if_pos h0] at he
        exact Except.noConfusion he
      · rw [if_neg h0] at he
        injection he with he
        refine ⟨encodeResponseFields r (encodeContent c), he.symm, ?_, ?_, hdec⟩ <;>
          simp [encodeResponseFields]

theorem sizesEmitted_C9_witness :
    lookupField (encodeRequestFields ⟨"GET", "http://a/", "HTTP/1.1", [], [], [], none,
        0, -1, ""⟩) "headersSize" = some (.num ((0 : Int) : ℚ)) ∧
    lookupField (encodeRequestFields ⟨"GET", "http://a/", "HTTP/1.1", [], [], [], none,
        0, -1, ""⟩) "bodySize" = some (.num ((-1 : Int) : ℚ)) ∧
    decodeRequest (encodeRequest ⟨"GET", "http://a/", "HTTP/1.1", [], [], [], none,
        0, -1, ""⟩) = .ok ⟨"GET", "http://a/", "HTTP/1.1", [], [], [], none, 0, -1, ""⟩ ∧
    (∃ fs, (encodeResponse c9resp).toOption.getD .null = .obj fs ∧
      lookupField fs "headersSize" = some (.num ((c9resp.headersSize : Int) : ℚ)) ∧
      lookupField fs "bodySize" = some (.num ((c9resp.bodySize : Int) : ℚ)) ∧
      decodeResponse ((encodeResponse c9resp).toOption.getD .null) = .ok c9resp) :=
  ⟨(sizesEmitted_C9.1 ⟨"GET", "http://a/", "HTTP/1.1", [], [], [], none, 0, -1, ""⟩).1,
    (sizesEmitted_C9.1 ⟨"GET", "http://a/", "HTTP/1.1", [], [], [], none, 0, -1, ""⟩).2.1,
    (sizesEmitted_C9.1 ⟨"GET", "http://a/", "HTTP/1.1", [], [], [], none, 0, -1, ""⟩).2.2,
    sizesEmitted_C9.2 c9resp ((encodeResponse c9resp).toOption.getD .null)
      (by decide) (by rfl)⟩

/-- C10: for every Cookie, Encode always emits the httpOnly and secure keys,
including when their value is false; and on Decode, a cookie object lacking
the httpOnly or the secure key yields the corresponding flag as false,
indistinguishable from an input that carried that flag as an explicit
false. -/
theorem cookieFlags_C10 :
    (∀ c : Cookie,
      lookupField (encodeCookieFields c) "httpOnly" = some (.bool c.httpOnly) ∧
      lookupField (encodeCookieFields c) "secure" = some (.bool c.secure)) ∧
    (∀ (fs : Fields) (c : Cookie), decodeCookieFields fs = .ok c →
      (lookupField fs "httpOnly" = none → c.httpOnly = false ∧
        decodeCookieFields (fs ++ [("httpOnly", .bool false)]) = .ok c) ∧
      (lookupField fs "secure" = none → c.secure = false ∧
        decodeCookieFields (fs ++ [("secure", .bool false)]) = .ok c)) := by
  constructor
  · intro c
    constructor <;> simp [encodeCookieFields]
  · intro fs c hdec
    simp only [decodeCookieFields, ebind_eq_ok] at hdec
    obtain ⟨n, hn, v, hv, pa, hpa, dm, hdm, ex, hex, ho, hho, se, hse, cm, hcm, hfin⟩ := hdec
    injection hfin with hfin
    subst hfin
    constructor
    · intro h1
      rw [h1] at hho
      simp only [decodeBool, Except.ok.injEq] at hho
      subst hho
      have hhoL : lookupField (fs ++ [("httpOnly", .bool false)]) "httpOnly"
          = some (.bool false) := by
        rw [lookupField_append, h1]
        simp
      refine ⟨rfl, ?_⟩
      simp only [decodeCookieFields,
        lookupField_append_extra fs "httpOnly" (.bool false) "name" (by decide),
        lookupField_append_extra fs "httpOnly" (.bool false) "value" (by decide),
        lookupField_append_extra fs "httpOnly" (.bool false) "path" (by decide),
        lookupField_append_extra fs "httpOnly" (.bool false) "domain" (by decide),
        lookupField_append_extra fs "httpOnly" (.bool false) "expires" (by decide),
        lookupField_append_extra fs "httpOnly" (.bool false) "secure" (by decide),
        lookupField_append_extra fs "httpOnly" (.bool false) "comment" (by decide),
        hhoL, hn, hv, hpa, hdm, hex, hse, hcm, decodeBool_bool, ebind_ok]
    · intro h2
      rw [h2] at hse
      simp only [decodeBool, Except.ok.injEq] at hse
      subst hse
      have hseL : lookupField (fs ++ [("secure", .bool false)]) "secure"
          = some (.bool false) := by
        rw [lookupField_append, h2]
        simp
      refine ⟨rfl, ?_⟩
      simp only [decodeCookieFields,
        lookupField_append_extra fs "secure" (.bool false) "name" (by decide),
        lookupField_append_extra fs "secure" (.bool false) "value" (by decide),
        lookupField_append_extra fs "secure" (.bool false) "path" (by decide),
        lookupField_append_extra fs "secure" (.bool false) "domain" (by decide),
        lookupField_append_extra fs "secure" (.bool false) "expires" (by decide),
        lookupField_append_extra fs "secure" (.bool false) "httpOnly" (by decide),
        lookupField_append_extra fs "secure" (.bool false) "comment" (by decide),
        hseL, hn, hv, hpa, hdm, hex, hho, hcm, decodeBool_bool, ebind_ok]

theorem cookieFlags_C10_witness :
    lookupField (encodeCookieFields ⟨"n", "v", "", "", "", false, false, ""⟩) "httpOnly"
      = some (.bool false) ∧
    ∃ c : Cookie,
      decodeCookieFields [("name", .str "n"), ("secure", .bool true)] = .ok c ∧
      c.httpOnly = false ∧ c.secure = true ∧
      decodeCookieFields ([("name", .str "n"), ("secure", .bool true)]
        ++ [("httpOnly", .bool false)]) = .ok c := by
  refine ⟨(cookieFlags_C10.1 ⟨"n", "v", "", "", "", false, false, ""⟩).1, ?_⟩
  refine ⟨⟨"n", "", "", "", "", false, true, ""⟩, by rfl, ?_, rfl, ?_⟩
  · exact ((cookieFlags_C10.2 [("name", .str "n"), ("secure", .bool true)]
      ⟨"n", "", "", "", "", false, true, ""⟩ (by rfl)).1 rfl).1
  · exact ((cookieFlags_C10.2 [("name", .str "n"), ("secure", .bool true)]
      ⟨"n", "", "", "", "", false, true, ""⟩ (by rfl)).1 rfl).2

end Harkit
